import Mathlib

/-!
# Trajectory simulator of `labs/lab1/misha/src/task2.h`

A shallow embedding of the mass model, the distance function, the force model
with its inline crossing detector, the simulation driver and the objective
function, followed by theorems about them. The potential and its gradient of
the lattice simulation (`labs/lab3/misha/src/chart.h`) come after them.

Conventions of the embedding.

* `double` arithmetic is idealised as exact arithmetic in a linearly ordered
  field `α`; every definition is computable and can be run at `α = ℚ`, every
  theorem also holds at `α = ℝ`.
* The functions `std::sqrt`, `cos`, `sin` and the constant `M_PI` come from
  `<cmath>`; they are explicit arguments of the definitions that use them.
  `std::pow(x, 3)` is the cube `x ^ 3`.
* The static data members of `class Physics` are the fields of the record
  `Physics α`; a function that writes them takes the record and returns the
  new one.
* `throw std::runtime_error` inside `calculateForces` is the result `none`
  (paired with the statics as they are at the throw).
* A field has `x / 0 = 0`, the source has not: where a claim is about a
  division by zero, the quotient is taken by `checked_div`, which has no
  value at a zero divisor; `rocket_acceleration` is the rocket part of
  `calculateForces` with its divisions checked and agrees with it wherever
  it is defined.
* `integrate_adaptive` and the stepper belong to Boost.Odeint.  The driver
  takes the integrator as an argument: a deterministic strategy (`Stepper`)
  that asks for the derivative at states and times of its choosing and
  decides from each answer what to ask next.
-/

/-- The type `state_type = std::array<double, 8>`. -/
abbrev state_type (α : Type) : Type := Fin 8 → α

namespace Constants

variable {α : Type} [LinearOrderedField α]

def G : α := 6.67e-11

def M1 : α := 2.0e30

def M2 : α := 6.4e23

def M3 : α := 1.1e16

def R1 : α := 696340e3

def R2 : α := 3390e3

def R3 : α := 11.1e3

def R12 : α := 228e9

def R23 : α := 9.4e6

def U2 : α := 24e3

def U3 : α := 2.14e3

def T : α := 1200.0

def H : α := 200e3

def M0 : α := 10.0

def U : α := 3040.0

def koef : α := 0.05

def MIN_ANGLE : α := 0.0

/-- The bound `MAX_ANGLE = 2 * M_PI`; the value of `M_PI` is an argument. -/
def MAX_ANGLE (M_PI : α) : α := 2 * M_PI

def MIN_FUEL : α := 50.0

def MAX_FUEL : α := 150.0

end Constants

/-- The value `std::numeric_limits<double>::max()`, the largest finite
double `(2 - 2^(-52)) * 2^1023`. -/
def DBL_MAX {α : Type} [LinearOrderedField α] : α := 2 ^ 1024 - 2 ^ 971

/-- The static data members of `class Physics`. -/
structure Physics (α : Type) where
  mt : α
  r12x : α
  r12y : α
  trajectory_crossed : Bool
  prev_distance : α
  min_distance : α
  final_distance : α

/-- A deterministic integrator seen from the force model: it either stops
(`done`) or asks for the derivative at a state and a time (`sys y t k`) and
continues with `k f` once it has the derivative `f`. -/
inductive Stepper (α : Type) where
  | done : Stepper α
  | sys : state_type α → α → (state_type α → Stepper α) → Stepper α

namespace Physics

variable {α : Type} [LinearOrderedField α]

/-- The statics as the program starts (the definitions at namespace scope
after the class; `mt`, `r12x`, `r12y` are zero-initialised). -/
def start : Physics α :=
  { mt := 0, r12x := 0, r12y := 0, trajectory_crossed := false,
    prev_distance := 0, min_distance := DBL_MAX, final_distance := DBL_MAX }

def distance (sqrt : α → α) (x1 y1 x2 y2 : α) : α :=
  let dx := x2 - x1
  let dy := y2 - y1
  sqrt (dx * dx + dy * dy)

def m (s : Physics α) (t : α) : α :=
  if t ≥ Constants.T then
    Constants.M0
  else
    (Constants.M0 + s.mt) / (1 - Constants.koef) - (s.mt * t) / Constants.T

def dm (s : Physics α) (t : α) : α :=
  if t > Constants.T then
    0.0
  else
    -s.mt / Constants.T

/-- The function `calculateForces(y, f, t)`: the new statics, and the
derivative `f` (`none` when the function throws). -/
def calculateForces (sqrt : α → α) (s : Physics α) (y : state_type α) (t : α) :
    Physics α × Option (state_type α) :=
  let rx := y 0
  let ry := y 1
  let vx := y 4
  let vy := y 5
  let r13x := y 2
  let r13y := y 3
  let v3x := y 6
  let v3y := y 7
  let current_distance := distance sqrt rx ry r13x r13y
  let s := { s with min_distance := min s.min_distance current_distance }
  if (s.trajectory_crossed = false ∧ s.prev_distance ≠ 0) ∧
      current_distance < Constants.R3 * 10 then
    ({ s with trajectory_crossed := true, final_distance := current_distance }, none)
  else
    let s := { s with prev_distance := current_distance }
    let r := sqrt (rx * rx + ry * ry)
    let r2 := distance sqrt rx ry s.r12x s.r12y
    let r3 := distance sqrt rx ry r13x r13y
    let r13 := sqrt (r13x * r13x + r13y * r13y)
    let r23 := distance sqrt r13x r13y s.r12x s.r12y
    let v := sqrt (vx * vx + vy * vy)
    let f0 := vx
    let f1 := vy
    let f2 := v3x
    let f3 := v3y
    let f4 := -(Constants.U * s.dm t * vx) / (v * s.m t) +
      Constants.G * (
        -Constants.M1 * rx / r ^ 3
        - Constants.M2 * (rx - s.r12x) / r2 ^ 3
        - Constants.M3 * (rx - r13x) / r3 ^ 3)
    let f5 := -(Constants.U * s.dm t * vy) / (v * s.m t) +
      Constants.G * (
        -Constants.M1 * ry / r ^ 3
        - Constants.M2 * (ry - s.r12y) / r2 ^ 3
        - Constants.M3 * (ry - r13y) / r3 ^ 3)
    let f6 := -Constants.G * Constants.M1 * r13x / r13 ^ 3 -
      Constants.G * Constants.M2 * (r13x - s.r12x) / r23 ^ 3
    let f7 := -Constants.G * Constants.M1 * r13y / r13 ^ 3 -
      Constants.G * Constants.M2 * (r13y - s.r12y) / r23 ^ 3
    (s, some ![f0, f1, f2, f3, f4, f5, f6, f7])

/-- Running an integrator against `calculateForces`: every request is
answered by one evaluation, in order; the first evaluation that throws ends
the run, the exception propagating through the integrator.  The result is
the statics at the end and whether the run ended by the exception. -/
def run (sqrt : α → α) : Stepper α → Physics α → Physics α × Bool
  | Stepper.done, s => (s, false)
  | Stepper.sys y t k, s =>
    match calculateForces sqrt s y t with
    | (s1, none) => (s1, true)
    | (s1, some f) => run sqrt (k f) s1

/-- The function `simulate_trajectory(angle, fuel_mass)`; the argument
`integrate_adaptive` receives the initial state, `t`, `t_end` and `h`. -/
def simulate_trajectory (sqrt cos sin : α → α)
    (integrate_adaptive : state_type α → α → α → α → Stepper α)
    (s : Physics α) (angle fuel_mass : α) : Physics α × α :=
  let s := { s with min_distance := DBL_MAX }
  let s := { s with final_distance := DBL_MAX }
  let s := { s with trajectory_crossed := false }
  let s := { s with prev_distance := 0 }
  let s := { s with mt := fuel_mass }
  let r12x0 : α := -166486522781.19
  let r12y0 : α := -149495158174.03
  let v2x0 : α := 16237.99
  let v2y0 : α := -18387.63
  let r13x0 : α := -166476539755.17
  let r13y0 : α := -220575669506.13
  let v3x0 : α := 26035.80
  let v3y0 : α := -5315.35
  let s := { s with r12x := r12x0 }
  let s := { s with r12y := r12y0 }
  let r3x := r13x0 - s.r12x
  let r3y := r13y0 - s.r12y
  let r3 := sqrt (r3x * r3x + r3y * r3y)
  let v0 := 1.0 * sqrt (Constants.G * Constants.M2 / (Constants.R2 + Constants.H))
  let rx0 := (Constants.R2 + Constants.H) * (r3x * cos angle - r3y * sin angle) / r3
  let ry0 := (Constants.R2 + Constants.H) * (r3x * sin angle + r3y * cos angle) / r3
  let r0 := sqrt (rx0 * rx0 + ry0 * ry0)
  let vx0 := -v0 * ry0 / r0
  let vy0 := v0 * rx0 / r0
  let rx0 := rx0 + s.r12x
  let ry0 := ry0 + s.r12y
  let y : state_type α := ![rx0, ry0, r13x0, r13y0, vx0, vy0, v3x0 - v2x0, v3y0 - v2y0]
  let t : α := 0.0
  let t_end : α := 60.0 * 60 * 24
  let h : α := 0.1
  match run sqrt (integrate_adaptive y t t_end h) s with
  | (s, true) => (s, s.final_distance)
  | (s, false) => (s, s.min_distance + 1e6)

/-- The statics as `simulate_trajectory` has set them when it hands over to
the integrator (the assignments of lines 135-139 and 147-148). -/
def reset (s : Physics α) (fuel_mass : α) : Physics α :=
  { s with
    min_distance := DBL_MAX
    final_distance := DBL_MAX
    trajectory_crossed := false
    prev_distance := 0
    mt := fuel_mass
    r12x := -166486522781.19
    r12y := -149495158174.03 }

/-- The initial state `y` that `simulate_trajectory` builds (lines 142-167). -/
def initial_state (sqrt cos sin : α → α) (angle : α) : state_type α :=
  let r12x0 : α := -166486522781.19
  let r12y0 : α := -149495158174.03
  let v2x0 : α := 16237.99
  let v2y0 : α := -18387.63
  let r13x0 : α := -166476539755.17
  let r13y0 : α := -220575669506.13
  let v3x0 : α := 26035.80
  let v3y0 : α := -5315.35
  let r3x := r13x0 - r12x0
  let r3y := r13y0 - r12y0
  let r3 := sqrt (r3x * r3x + r3y * r3y)
  let v0 := 1.0 * sqrt (Constants.G * Constants.M2 / (Constants.R2 + Constants.H))
  let rx0 := (Constants.R2 + Constants.H) * (r3x * cos angle - r3y * sin angle) / r3
  let ry0 := (Constants.R2 + Constants.H) * (r3x * sin angle + r3y * cos angle) / r3
  let r0 := sqrt (rx0 * rx0 + ry0 * ry0)
  let vx0 := -v0 * ry0 / r0
  let vy0 := v0 * rx0 / r0
  let rx0 := rx0 + r12x0
  let ry0 := ry0 + r12y0
  ![rx0, ry0, r13x0, r13y0, vx0, vy0, v3x0 - v2x0, v3y0 - v2y0]

/-- The separations `current_distance` that the evaluations of a run compute,
in the order of the evaluations (the throwing evaluation, if any, is last). -/
def separations (sqrt : α → α) : Stepper α → Physics α → List α
  | Stepper.done, _ => []
  | Stepper.sys y t k, s =>
    match calculateForces sqrt s y t with
    | (_, none) => [distance sqrt (y 0) (y 1) (y 2) (y 3)]
    | (s1, some f) => distance sqrt (y 0) (y 1) (y 2) (y 3) :: separations sqrt (k f) s1

/-- The evaluations of `calculateForces` that a run makes, in the order it
makes them: for each one the statics it starts from, the state and the time
(the throwing evaluation, if any, is last). -/
def evaluations (sqrt : α → α) :
    Stepper α → Physics α → List (Physics α × state_type α × α)
  | Stepper.done, _ => []
  | Stepper.sys y t k, s =>
    match calculateForces sqrt s y t with
    | (_, none) => [(s, y, t)]
    | (s1, some f) => (s, y, t) :: evaluations sqrt (k f) s1

/-- What `simulate_trajectory` returns after a run of the integrator: the
`catch` branch gives `final_distance`, normal completion gives
`min_distance + 1e6`. -/
def finish (r : Physics α × Bool) : Physics α × α :=
  match r with
  | (s, true) => (s, s.final_distance)
  | (s, false) => (s, s.min_distance + 1e6)

end Physics

namespace OptimizationProblem

variable {α : Type} [LinearOrderedField α]

/-- The call operator `OptimizationProblem::operator()(x)`: the statics after
the call and the returned cost.  Reading `x[0]`, `x[1]` of a shorter vector
is undefined; the embedding gives `none` there. -/
def call (M_PI : α) (sqrt cos sin : α → α)
    (integrate_adaptive : state_type α → α → α → α → Stepper α)
    (s : Physics α) (x : List α) : Option (Physics α × α) :=
  match x with
  | angle :: fuel :: _ =>
    if angle < Constants.MIN_ANGLE ∨ angle > Constants.MAX_ANGLE M_PI ∨
        fuel < Constants.MIN_FUEL ∨ fuel > Constants.MAX_FUEL then
      some (s, DBL_MAX)
    else
      some (Physics.simulate_trajectory sqrt cos sin integrate_adaptive s angle fuel)
  | _ => none

end OptimizationProblem

/-- An integrator that asks for the derivative once, at the initial state and
time, and stops. -/
def probeOnce {α : Type} (y : state_type α) (t _t_end _h : α) : Stepper α :=
  Stepper.sys y t (fun _ => Stepper.done)

/-- An integrator that ignores the initial state and asks for the derivative
at each state of a given list in turn, at time `t`. -/
def visit {α : Type} : List (state_type α) → state_type α → α → α → α → Stepper α
  | [], _, _, _, _ => Stepper.done
  | y :: ys, y0, t, t_end, h => Stepper.sys y t (fun _ => visit ys y0 t t_end h)

/-- An integrator that asks for the derivative at the initial state and time
first, as the steppers of Boost.Odeint do, and then at each state of a given
list in turn. -/
def probe_then_visit {α : Type} (ys : List (state_type α)) (y : state_type α)
    (t t_end h : α) : Stepper α :=
  Stepper.sys y t (fun _ => visit ys y t t_end h)

/-- A sample state: rocket at `(0, 1)` with velocity `(1, 0)`, satellite at
`(d, 1)` with velocity `(0, 0)`; their separation is `|d|`. -/
def at_separation {α : Type} [LinearOrderedField α] (d : α) : state_type α :=
  ![0, 1, d, 1, 1, 0, 0, 0]

/-- The quotient `a / b` where the divisor is not zero, and `none` where it is
zero: at a zero divisor the division of doubles produces an infinity or a
NaN, not a number. -/
def checked_div {α : Type} [LinearOrderedField α] (a b : α) : Option α :=
  if b = 0 then none else some (a / b)

namespace Physics

variable {α : Type} [LinearOrderedField α]

/-- The thrust term `-(U * dm(t) * vc) / (v * m(t))` of `calculateForces`
(line 111 with `vc = vx`, line 118 with `vc = vy`), its division checked. -/
def thrust_term (sqrt : α → α) (s : Physics α) (y : state_type α) (t : α) (vc : α) :
    Option α :=
  let vx := y 4
  let vy := y 5
  let v := sqrt (vx * vx + vy * vy)
  checked_div (-(Constants.U * s.dm t * vc)) (v * s.m t)

/-- The rocket acceleration `(f[4], f[5])` of `calculateForces` (lines
111-123) with every division checked: `none` as soon as one divisor is
zero. -/
def rocket_acceleration (sqrt : α → α) (s : Physics α) (y : state_type α) (t : α) :
    Option (α × α) :=
  let rx := y 0
  let ry := y 1
  let vx := y 4
  let vy := y 5
  let r13x := y 2
  let r13y := y 3
  let r := sqrt (rx * rx + ry * ry)
  let r2 := distance sqrt rx ry s.r12x s.r12y
  let r3 := distance sqrt rx ry r13x r13y
  do
    let tx ← thrust_term sqrt s y t vx
    let ax ← checked_div (-Constants.M1 * rx) (r ^ 3)
    let bx ← checked_div (Constants.M2 * (rx - s.r12x)) (r2 ^ 3)
    let cx ← checked_div (Constants.M3 * (rx - r13x)) (r3 ^ 3)
    let ty ← thrust_term sqrt s y t vy
    let ay ← checked_div (-Constants.M1 * ry) (r ^ 3)
    let b1 ← checked_div (Constants.M2 * (ry - s.r12y)) (r2 ^ 3)
    let cy ← checked_div (Constants.M3 * (ry - r13y)) (r3 ^ 3)
    pure (tx + Constants.G * (ax - bx - cx), ty + Constants.G * (ay - b1 - cy))

end Physics

/-- A sample state with the rocket at rest: rocket at `(0, 1)` with velocity
`(0, 0)`, satellite at `(5, 1)` with velocity `(0, 0)`. -/
def at_rest {α : Type} [LinearOrderedField α] : state_type α :=
  ![0, 1, 5, 1, 0, 0, 0, 0]

/-- A second sample state with the satellite at `(5, 1)`: rocket at `(7, 7)`
with velocity `(2, 3)`, satellite velocity `(4, 6)`. -/
def far_rocket {α : Type} [LinearOrderedField α] : state_type α :=
  ![7, 7, 5, 1, 2, 3, 4, 6]

/-- The data members of `class Chart` (`labs/lab3/misha/src/chart.h`) that
`CalcV` and `CalcGradV` read. The vector `Offsets` is a list; reading
`Offsets[i]` is `Offsets.getD i 0` (an index out of range is undefined in the
source). -/
structure Chart (α : Type) where
  Alpha : α
  Beta : α
  NumberOfParticles : Nat
  Offsets : List α

namespace Chart

variable {α : Type} [LinearOrderedField α]

/-- The function `CalcGradV(qM1, q, qP1)` (lines 103-107); `std::pow(x, n)` is
the power `x ^ n`. -/
def CalcGradV (c : Chart α) (qM1 q qP1 : α) : α :=
  -(qP1 - q) + (q - qM1) +
    c.Alpha * (-((qP1 - q) ^ 2) + (q - qM1) ^ 2) +
    c.Beta * (-((qP1 - q) ^ 3) + (q - qM1) ^ 3)

/-- The function `CalcV(q, qP1)` (lines 118-121). -/
def CalcV (c : Chart α) (q qP1 : α) : α :=
  let r := qP1 - q
  r * r / 2.0 + c.Alpha * r * r * r / 3.0 + c.Beta * r * r * r * r / 4.0

/-- The function `CalcGradV()` (lines 88-101): a vector of
`NumberOfParticles` entries, entry 0 and the last entry written first, then
the entries `1 .. NumberOfParticles - 2` by the loop. -/
def CalcGradV_vec (c : Chart α) : List α :=
  let result : List α := List.replicate c.NumberOfParticles 0
  let result := result.set 0
    (c.CalcGradV (c.Offsets.getD (c.NumberOfParticles - 1) 0) (c.Offsets.getD 0 0)
      (c.Offsets.getD 1 0))
  let result := result.set (c.NumberOfParticles - 1)
    (c.CalcGradV (c.Offsets.getD (c.NumberOfParticles - 2) 0)
      (c.Offsets.getD (c.NumberOfParticles - 1) 0)
      (c.Offsets.getD 0 0))
  (List.range' 1 (c.NumberOfParticles - 1 - 1)).foldl
    (fun result i => result.set i
      (c.CalcGradV (c.Offsets.getD (i - 1) 0) (c.Offsets.getD i 0) (c.Offsets.getD (i + 1) 0)))
    result

/-- The function `CalcV()` (lines 109-116): a vector of `Offsets.size()`
entries, the entries `0 .. size - 2` written by the loop, the last one after
it. -/
def CalcV_vec (c : Chart α) : List α :=
  let result : List α := List.replicate c.Offsets.length 0
  let result := (List.range (c.Offsets.length - 1)).foldl
    (fun result i => result.set i
      (c.CalcV (c.Offsets.getD i 0) (c.Offsets.getD (i + 1) 0)))
    result
  result.set (result.length - 1)
    (c.CalcV (c.Offsets.getD (result.length - 1) 0) (c.Offsets.getD 0 0))

end Chart

/-- A sample ring of four particles with offsets `1, 2, 4, 8`, `Alpha = 1`
and `Beta = 2`. -/
def sample_ring {α : Type} [LinearOrderedField α] : Chart α :=
  { Alpha := 1, Beta := 2, NumberOfParticles := 4, Offsets := [1, 2, 4, 8] }

/-! ## Shared lemmas: constants and the mass model -/

section MassModel

variable {α : Type} [LinearOrderedField α]

theorem Constants.T_eq : (Constants.T : α) = 1200 := by
  norm_num [Constants.T]

theorem Constants.M0_eq : (Constants.M0 : α) = 10 := by
  norm_num [Constants.M0]

theorem Constants.koef_eq : (Constants.koef : α) = 1 / 20 := by
  norm_num [Constants.koef]

theorem Constants.R3_mul_ten : (Constants.R3 : α) * 10 = 111000 := by
  norm_num [Constants.R3]

/-- Before burn completion `m` is the affine expression of the source. -/
theorem Physics.m_of_lt (s : Physics α) (t : α) (h : t < Constants.T) :
    s.m t = (Constants.M0 + s.mt) / (1 - Constants.koef) - (s.mt * t) / Constants.T := by
  unfold Physics.m
  rw [if_neg (not_le.mpr h)]

/-- From burn completion on `m` is the payload mass. -/
theorem Physics.m_of_ge (s : Physics α) (t : α) (h : Constants.T ≤ t) :
    s.m t = Constants.M0 := by
  unfold Physics.m
  rw [if_pos h]

/-- The affine expression in closed form with the constants evaluated. -/
theorem Physics.m_of_lt_closed (s : Physics α) (t : α) (h : t < Constants.T) :
    s.m t = (10 + s.mt) * 20 / 19 - s.mt * t / 1200 := by
  rw [Physics.m_of_lt s t h, Constants.M0_eq, Constants.koef_eq, Constants.T_eq]
  norm_num
  ring

end MassModel

/-! ## Shared lemmas: the crossing detector and the driver -/

section Detector

variable {α : Type} [LinearOrderedField α]

/-- The driver is: reset the statics, build the initial state, run the
integrator from `t = 0` to `t_end = 60 * 60 * 24` with `h = 0.1`, and return
by `finish`. -/
theorem Physics.simulate_trajectory_eq (sqrt cos sin : α → α)
    (integ : state_type α → α → α → α → Stepper α) (s : Physics α) (angle fuel : α) :
    Physics.simulate_trajectory sqrt cos sin integ s angle fuel =
      Physics.finish (Physics.run sqrt
        (integ (Physics.initial_state sqrt cos sin angle) 0.0 (60.0 * 60 * 24) 0.1)
        (Physics.reset s fuel)) := by
  unfold Physics.simulate_trajectory Physics.finish Physics.reset Physics.initial_state
  rfl

/-- An evaluation whose guard holds and whose separation is below `R3 * 10`
marks the crossing, stores the separation and throws. -/
theorem Physics.calculateForces_fire (sqrt : α → α) (s : Physics α) (y : state_type α) (t : α)
    (hc : s.trajectory_crossed = false) (hp : s.prev_distance ≠ 0)
    (hd : Physics.distance sqrt (y 0) (y 1) (y 2) (y 3) < Constants.R3 * 10) :
    Physics.calculateForces sqrt s y t =
      ({ s with
          min_distance := min s.min_distance (Physics.distance sqrt (y 0) (y 1) (y 2) (y 3))
          trajectory_crossed := true
          final_distance := Physics.distance sqrt (y 0) (y 1) (y 2) (y 3) }, none) := by
  unfold Physics.calculateForces
  simp only []
  rw [if_pos ⟨⟨hc, hp⟩, hd⟩]

/-- Every other evaluation returns a derivative; of the statics it changes
`min_distance` and `prev_distance` only. -/
theorem Physics.calculateForces_pass (sqrt : α → α) (s : Physics α) (y : state_type α) (t : α)
    (h : ¬ ((s.trajectory_crossed = false ∧ s.prev_distance ≠ 0) ∧
      Physics.distance sqrt (y 0) (y 1) (y 2) (y 3) < Constants.R3 * 10)) :
    ∃ f, Physics.calculateForces sqrt s y t =
      ({ s with
          min_distance := min s.min_distance (Physics.distance sqrt (y 0) (y 1) (y 2) (y 3))
          prev_distance := Physics.distance sqrt (y 0) (y 1) (y 2) (y 3) }, some f) := by
  unfold Physics.calculateForces
  simp only []
  rw [if_neg h]
  exact ⟨_, rfl⟩

end Detector

section DetectorMore

variable {α : Type} [LinearOrderedField α]

/-- The statics after an evaluation that does not fire, and the fact that it
returns a derivative. -/
theorem Physics.calculateForces_pass_fst (sqrt : α → α) (s : Physics α) (y : state_type α)
    (t : α)
    (h : ¬ ((s.trajectory_crossed = false ∧ s.prev_distance ≠ 0) ∧
      Physics.distance sqrt (y 0) (y 1) (y 2) (y 3) < Constants.R3 * 10)) :
    (Physics.calculateForces sqrt s y t).1 =
      { s with
          min_distance := min s.min_distance (Physics.distance sqrt (y 0) (y 1) (y 2) (y 3))
          prev_distance := Physics.distance sqrt (y 0) (y 1) (y 2) (y 3) } ∧
    (Physics.calculateForces sqrt s y t).2.isSome = true := by
  obtain ⟨f, hf⟩ := Physics.calculateForces_pass sqrt s y t h
  rw [hf]
  exact ⟨rfl, rfl⟩

end DetectorMore

section Driver

variable {α : Type} [LinearOrderedField α]

theorem Physics.run_done (sqrt : α → α) (s : Physics α) :
    Physics.run sqrt Stepper.done s = (s, false) := rfl

/-- A request answered by a throwing evaluation ends the run. -/
theorem Physics.run_sys_none (sqrt : α → α) (s s1 : Physics α) (y : state_type α) (t : α)
    (k : state_type α → Stepper α) (h : Physics.calculateForces sqrt s y t = (s1, none)) :
    Physics.run sqrt (Stepper.sys y t k) s = (s1, true) := by
  rw [Physics.run, h]

/-- A request answered by a derivative continues the run with the integrator
that the derivative selects. -/
theorem Physics.run_sys_some (sqrt : α → α) (s s1 : Physics α) (y f : state_type α) (t : α)
    (k : state_type α → Stepper α) (h : Physics.calculateForces sqrt s y t = (s1, some f)) :
    Physics.run sqrt (Stepper.sys y t k) s = Physics.run sqrt (k f) s1 := by
  rw [Physics.run, h]

/-- No evaluation writes `mt`. -/
theorem Physics.run_mt (sqrt : α → α) (st : Stepper α) :
    ∀ s : Physics α, (Physics.run sqrt st s).1.mt = s.mt := by
  induction st with
  | done => intro s; rfl
  | sys y t k ih =>
    intro s
    by_cases h : (s.trajectory_crossed = false ∧ s.prev_distance ≠ 0) ∧
        Physics.distance sqrt (y 0) (y 1) (y 2) (y 3) < Constants.R3 * 10
    · rw [Physics.run_sys_none sqrt s _ y t k
        (Physics.calculateForces_fire sqrt s y t h.1.1 h.1.2 h.2)]
    · obtain ⟨f, hf⟩ := Physics.calculateForces_pass sqrt s y t h
      rw [Physics.run_sys_some sqrt s _ y f t k hf, ih f]

/-- After a call `mt` is the fuel mass of the call. -/
theorem Physics.simulate_trajectory_mt (sqrt cos sin : α → α)
    (integ : state_type α → α → α → α → Stepper α) (s : Physics α) (angle fuel : α) :
    (Physics.simulate_trajectory sqrt cos sin integ s angle fuel).1.mt = fuel := by
  rw [Physics.simulate_trajectory_eq]
  have h := Physics.run_mt sqrt
    (integ (Physics.initial_state sqrt cos sin angle) 0.0 (60.0 * 60 * 24) 0.1)
    (Physics.reset s fuel)
  revert h
  generalize Physics.run sqrt _ (Physics.reset s fuel) = r
  intro h
  rcases r with ⟨s1, b⟩
  cases b <;> exact h

/-- The outcome of a run that starts with the flag clear and a non-negative
`min_distance`, for a square root with non-negative values: a run ended by
the exception leaves the flag set and `final_distance` below `R3 * 10`; a run
that completes leaves the flag clear and `min_distance` non-negative. -/
theorem Physics.run_outcome (sqrt : α → α) (hsqrt : ∀ x, 0 ≤ sqrt x) (st : Stepper α) :
    ∀ s : Physics α, s.trajectory_crossed = false → 0 ≤ s.min_distance →
      ((Physics.run sqrt st s).2 = true →
        (Physics.run sqrt st s).1.trajectory_crossed = true ∧
        (Physics.run sqrt st s).1.final_distance < Constants.R3 * 10) ∧
      ((Physics.run sqrt st s).2 = false →
        (Physics.run sqrt st s).1.trajectory_crossed = false ∧
        0 ≤ (Physics.run sqrt st s).1.min_distance) := by
  induction st with
  | done =>
    intro s hc hm
    rw [Physics.run_done]
    exact ⟨fun h => (by cases h), fun _ => ⟨hc, hm⟩⟩
  | sys y t k ih =>
    intro s hc hm
    by_cases h : (s.trajectory_crossed = false ∧ s.prev_distance ≠ 0) ∧
        Physics.distance sqrt (y 0) (y 1) (y 2) (y 3) < Constants.R3 * 10
    · rw [Physics.run_sys_none sqrt s _ y t k
        (Physics.calculateForces_fire sqrt s y t h.1.1 h.1.2 h.2)]
      exact ⟨fun _ => ⟨rfl, h.2⟩, fun hb => (by cases hb)⟩
    · obtain ⟨f, hf⟩ := Physics.calculateForces_pass sqrt s y t h
      rw [Physics.run_sys_some sqrt s _ y f t k hf]
      exact ih f _ hc (le_min hm (hsqrt _))

theorem DBL_MAX_pos : (0 : α) < DBL_MAX := by
  unfold DBL_MAX
  have h : (2 : α) ^ 971 < 2 ^ 1024 := pow_lt_pow_right₀ (by norm_num) (by norm_num)
  linarith

end Driver

section Samples

variable {α : Type} [LinearOrderedField α]

theorem Physics.run_visit_nil (sqrt : α → α) (y0 : state_type α) (t te h : α) (s : Physics α) :
    Physics.run sqrt (visit [] y0 t te h) s = (s, false) := rfl

/-- The integrator `visit`, at a state where the detector does not fire. -/
theorem Physics.run_visit_pass (sqrt : α → α) (y : state_type α) (ys : List (state_type α))
    (y0 : state_type α) (t te h : α) (s : Physics α)
    (hg : ¬ ((s.trajectory_crossed = false ∧ s.prev_distance ≠ 0) ∧
      Physics.distance sqrt (y 0) (y 1) (y 2) (y 3) < Constants.R3 * 10)) :
    Physics.run sqrt (visit (y :: ys) y0 t te h) s =
      Physics.run sqrt (visit ys y0 t te h)
        { s with
          min_distance := min s.min_distance (Physics.distance sqrt (y 0) (y 1) (y 2) (y 3))
          prev_distance := Physics.distance sqrt (y 0) (y 1) (y 2) (y 3) } := by
  obtain ⟨f, hf⟩ := Physics.calculateForces_pass sqrt s y t hg
  rw [visit, Physics.run_sys_some sqrt s _ y f t _ hf]

/-- The integrator `visit`, at a state where the detector fires. -/
theorem Physics.run_visit_fire (sqrt : α → α) (y : state_type α) (ys : List (state_type α))
    (y0 : state_type α) (t te h : α) (s : Physics α)
    (hc : s.trajectory_crossed = false) (hp : s.prev_distance ≠ 0)
    (hd : Physics.distance sqrt (y 0) (y 1) (y 2) (y 3) < Constants.R3 * 10) :
    Physics.run sqrt (visit (y :: ys) y0 t te h) s =
      ({ s with
          min_distance := min s.min_distance (Physics.distance sqrt (y 0) (y 1) (y 2) (y 3))
          trajectory_crossed := true
          final_distance := Physics.distance sqrt (y 0) (y 1) (y 2) (y 3) }, true) := by
  rw [visit, Physics.run_sys_none sqrt s _ y t _ (Physics.calculateForces_fire sqrt s y t hc hp hd)]

/-- The separation of the sample state `at_separation d`, for `d ≥ 0`. -/
theorem Physics.distance_at_separation (d : ℝ) (hd : 0 ≤ d) :
    Physics.distance Real.sqrt (at_separation d 0) (at_separation d 1)
      (at_separation d 2) (at_separation d 3) = d := by
  have e : Physics.distance Real.sqrt (at_separation d 0) (at_separation d 1)
      (at_separation d 2) (at_separation d 3) = Real.sqrt (d * d) := by
    simp [Physics.distance, at_separation]
  rw [e, Real.sqrt_mul_self hd]

theorem DBL_MAX_large : (1000000 : α) ≤ DBL_MAX := by
  unfold DBL_MAX
  have h1 : (2 : α) ^ 971 * 2 ≤ 2 ^ 1024 := by
    rw [← pow_succ]
    exact pow_le_pow_right₀ (by norm_num) (by norm_num)
  have h2 : (1000000 : α) ≤ 2 ^ 20 := by norm_num
  have h3 : (2 : α) ^ 20 ≤ 2 ^ 971 := pow_le_pow_right₀ (by norm_num) (by norm_num)
  linarith

/-- The call that visits the sample state of separation `d` once: no
crossing, `min_distance = d`, cost `d + 1e6` (for `0 ≤ d ≤ 1000000`). -/
theorem Physics.simulate_once (d : ℝ) (hd : 0 ≤ d) (hd1 : d ≤ 1000000) (s : Physics ℝ)
    (angle fuel : ℝ) :
    Physics.simulate_trajectory Real.sqrt Real.cos Real.sin (visit [at_separation d])
        s angle fuel =
      ({ Physics.reset s fuel with min_distance := d, prev_distance := d }, d + 1e6) := by
  rw [Physics.simulate_trajectory_eq, Physics.run_visit_pass _ _ _ _ _ _ _ _ (fun h => h.1.2 rfl),
    Physics.run_visit_nil, Physics.distance_at_separation d hd]
  have hm : min (Physics.reset s fuel).min_distance d = d :=
    min_eq_right (le_trans hd1 DBL_MAX_large)
  rw [hm]
  rfl

/-- The call that visits the sample state of separation `d` and then the one
of separation `e`, with `0 < d` and `0 ≤ e < 111000`: the second evaluation
signals the crossing and the call returns `e`. -/
theorem Physics.simulate_twice (d e : ℝ) (hd : 0 < d) (he : 0 ≤ e) (he1 : e < 111000)
    (s : Physics ℝ) (angle fuel : ℝ) :
    Physics.simulate_trajectory Real.sqrt Real.cos Real.sin
        (visit [at_separation d, at_separation e]) s angle fuel =
      ({ Physics.reset s fuel with
          min_distance := min (min DBL_MAX d) e
          prev_distance := d
          trajectory_crossed := true
          final_distance := e }, e) := by
  rw [Physics.simulate_trajectory_eq, Physics.run_visit_pass _ _ _ _ _ _ _ _ (fun h => h.1.2 rfl),
    Physics.distance_at_separation d hd.le,
    Physics.run_visit_fire _ _ _ _ _ _ _ _ rfl (ne_of_gt hd)
      (by rw [Physics.distance_at_separation e he, Constants.R3_mul_ten]; exact he1),
    Physics.distance_at_separation e he]
  rfl

end Samples

section Outcome

variable {α : Type} [LinearOrderedField α]

/-- After a run `min_distance` is the least of its value before the run and
the separations the run computed. -/
theorem Physics.run_min_distance (sqrt : α → α) (st : Stepper α) :
    ∀ s : Physics α, (Physics.run sqrt st s).1.min_distance =
      (Physics.separations sqrt st s).foldl min s.min_distance := by
  induction st with
  | done => intro s; rfl
  | sys y t k ih =>
    intro s
    by_cases h : (s.trajectory_crossed = false ∧ s.prev_distance ≠ 0) ∧
        Physics.distance sqrt (y 0) (y 1) (y 2) (y 3) < Constants.R3 * 10
    · have hf := Physics.calculateForces_fire sqrt s y t h.1.1 h.1.2 h.2
      rw [Physics.run_sys_none sqrt s _ y t k hf, Physics.separations, hf]
      rfl
    · obtain ⟨f, hf⟩ := Physics.calculateForces_pass sqrt s y t h
      rw [Physics.run_sys_some sqrt s _ y f t k hf, Physics.separations, hf, ih f]
      rfl

/-- The two ways a call returns, read off the flag after the call, for a
square root with non-negative values: with the flag set the call returned
`final_distance`, which is below `R3 * 10`; with the flag clear it returned
`min_distance + 1e6`, and `min_distance` is non-negative. -/
theorem Physics.simulate_trajectory_outcome (sqrt cos sin : α → α) (hsqrt : ∀ x, 0 ≤ sqrt x)
    (integ : state_type α → α → α → α → Stepper α) (s : Physics α) (angle fuel : α) :
    ((Physics.simulate_trajectory sqrt cos sin integ s angle fuel).1.trajectory_crossed = true →
        (Physics.simulate_trajectory sqrt cos sin integ s angle fuel).2 =
          (Physics.simulate_trajectory sqrt cos sin integ s angle fuel).1.final_distance ∧
        (Physics.simulate_trajectory sqrt cos sin integ s angle fuel).2 < Constants.R3 * 10) ∧
      ((Physics.simulate_trajectory sqrt cos sin integ s angle fuel).1.trajectory_crossed = false →
        (Physics.simulate_trajectory sqrt cos sin integ s angle fuel).2 =
          (Physics.simulate_trajectory sqrt cos sin integ s angle fuel).1.min_distance + 1e6 ∧
        0 ≤ (Physics.simulate_trajectory sqrt cos sin integ s angle fuel).1.min_distance) := by
  rw [Physics.simulate_trajectory_eq]
  have h := Physics.run_outcome sqrt hsqrt
    (integ (Physics.initial_state sqrt cos sin angle) 0.0 (60.0 * 60 * 24) 0.1)
    (Physics.reset s fuel) rfl (le_of_lt DBL_MAX_pos)
  revert h
  generalize Physics.run sqrt _ (Physics.reset s fuel) = r
  rcases r with ⟨s1, b⟩
  cases b
  · intro h
    have h2 := h.2 rfl
    refine ⟨fun hc => ?_, fun _ => ⟨rfl, h2.2⟩⟩
    have hs : s1.trajectory_crossed = false := h2.1
    exact Bool.noConfusion (hs.symm.trans hc)
  · intro h
    have h1 := h.1 rfl
    refine ⟨fun _ => ⟨rfl, h1.2⟩, fun hc => ?_⟩
    have hs : s1.trajectory_crossed = true := h1.1
    exact Bool.noConfusion (hs.symm.trans hc)

/-- After a call `min_distance` is the least of `DBL_MAX` and the separations
computed during the call. -/
theorem Physics.simulate_trajectory_min_distance (sqrt cos sin : α → α)
    (integ : state_type α → α → α → α → Stepper α) (s : Physics α) (angle fuel : α) :
    (Physics.simulate_trajectory sqrt cos sin integ s angle fuel).1.min_distance =
      (Physics.separations sqrt
        (integ (Physics.initial_state sqrt cos sin angle) 0.0 (60.0 * 60 * 24) 0.1)
        (Physics.reset s fuel)).foldl min DBL_MAX := by
  rw [Physics.simulate_trajectory_eq]
  have h := Physics.run_min_distance sqrt
    (integ (Physics.initial_state sqrt cos sin angle) 0.0 (60.0 * 60 * 24) 0.1)
    (Physics.reset s fuel)
  revert h
  generalize Physics.run sqrt _ (Physics.reset s fuel) = r
  rcases r with ⟨s1, b⟩
  cases b <;> exact fun h => h

end Outcome

section Objective

variable {α : Type} [LinearOrderedField α]

/-- The objective function, its guard spelled out with the constants
evaluated: outside `0 ≤ angle ≤ 2 * M_PI`, `50 ≤ fuel ≤ 150` it returns
`DBL_MAX` and the statics as they were; inside it is `simulate_trajectory`. -/
theorem OptimizationProblem.call_eq (M_PI : α) (sqrt cos sin : α → α)
    (integ : state_type α → α → α → α → Stepper α) (s : Physics α)
    (angle fuel : α) (rest : List α) :
    OptimizationProblem.call M_PI sqrt cos sin integ s (angle :: fuel :: rest) =
      if angle < 0 ∨ angle > 2 * M_PI ∨ fuel < 50 ∨ fuel > 150 then
        some (s, DBL_MAX)
      else
        some (Physics.simulate_trajectory sqrt cos sin integ s angle fuel) := by
  have e0 : (Constants.MIN_ANGLE : α) = 0 := by norm_num [Constants.MIN_ANGLE]
  have e1 : (Constants.MIN_FUEL : α) = 50 := by norm_num [Constants.MIN_FUEL]
  have e2 : (Constants.MAX_FUEL : α) = 150 := by norm_num [Constants.MAX_FUEL]
  simp only [OptimizationProblem.call, e0, e1, e2, Constants.MAX_ANGLE]

end Objective

/-! ## Claims on the mass model and the distance function -/

section ClaimsMass

variable {α : Type} [LinearOrderedField α]

/-- C1. For every fuel mass `mt` (whatever the other statics are) and every
time `t ≥ T`, where `T = 1200`, `m t` is exactly the payload mass `M0 = 10`. -/
theorem C1_m_after_burn (s : Physics α) (t : α) (h : t ≥ Constants.T) :
    s.m t = Constants.M0 ∧ (Constants.M0 : α) = 10 ∧ (Constants.T : α) = 1200 :=
  ⟨Physics.m_of_ge s t h, Constants.M0_eq, Constants.T_eq⟩

/-- C1 at fuel 100 and `t = T = 1200`, over the rationals. -/
theorem C1_m_after_burn_witness :
    (1200 : ℚ) ≥ Constants.T ∧
      ({ Physics.start with mt := 100 } : Physics ℚ).m 1200 = Constants.M0 :=
  ⟨by norm_num [Constants.T],
    (C1_m_after_burn ({ Physics.start with mt := 100 } : Physics ℚ) 1200
      (by norm_num [Constants.T])).1⟩

/-- C2 as stated fails: at fuel 100 the values `m t` for `t < T` do not tend
to `M0 = 10` as `t` tends to `T = 1200` from below; they tend to `300 / 19`,
the value of the affine branch at `t = T`. -/
theorem C2_counterexample :
    Filter.Tendsto (fun t : ℝ => ({ Physics.start with mt := 100 } : Physics ℝ).m t)
        (nhdsWithin 1200 (Set.Iio 1200)) (nhds (300 / 19)) ∧
      ¬ Filter.Tendsto (fun t : ℝ => ({ Physics.start with mt := 100 } : Physics ℝ).m t)
        (nhdsWithin 1200 (Set.Iio 1200)) (nhds (Constants.M0 : ℝ)) := by
  have key : Filter.Tendsto
      (fun t : ℝ => ({ Physics.start with mt := 100 } : Physics ℝ).m t)
      (nhdsWithin 1200 (Set.Iio 1200)) (nhds (300 / 19)) := by
    have hc : Filter.Tendsto (fun t : ℝ => (10 + (100 : ℝ)) * 20 / 19 - 100 * t / 1200)
        (nhdsWithin 1200 (Set.Iio 1200)) (nhds (300 / 19)) := by
      have hcont : Continuous (fun t : ℝ => (10 + (100 : ℝ)) * 20 / 19 - 100 * t / 1200) := by
        continuity
      have h1 := (hcont.tendsto 1200).mono_left
        (nhdsWithin_le_nhds : nhdsWithin (1200 : ℝ) (Set.Iio 1200) ≤ nhds 1200)
      have e : (10 + (100 : ℝ)) * 20 / 19 - 100 * 1200 / 1200 = 300 / 19 := by norm_num
      rw [e] at h1
      exact h1
    refine hc.congr' ?_
    filter_upwards [self_mem_nhdsWithin] with t ht
    have ht' : t < (Constants.T : ℝ) := by
      rw [Constants.T_eq]
      exact ht
    rw [Physics.m_of_lt_closed _ t ht']
  refine ⟨key, fun hbad => ?_⟩
  have huniq := tendsto_nhds_unique key hbad
  rw [Constants.M0_eq] at huniq
  norm_num at huniq

/-- C2 amended. For every fuel in `[50, 150]` the values `m t` for `t < T`
tend, as `t` tends to `T` from below, to `(M0 + koef * fuel) / (1 - koef)`,
the value of the affine branch at `t = T`; this limit is strictly above the
payload mass `M0`, which `m` takes from `T` on. -/
theorem C2_m_left_limit (s : Physics ℝ) (hfuel : 50 ≤ s.mt ∧ s.mt ≤ 150) :
    Filter.Tendsto (fun t : ℝ => s.m t) (nhdsWithin Constants.T (Set.Iio Constants.T))
        (nhds ((Constants.M0 + Constants.koef * s.mt) / (1 - Constants.koef))) ∧
      (Constants.M0 + s.mt) / (1 - Constants.koef) - (s.mt * Constants.T) / Constants.T
        = (Constants.M0 + Constants.koef * s.mt) / (1 - Constants.koef) ∧
      Constants.M0 < (Constants.M0 + Constants.koef * s.mt) / (1 - Constants.koef) ∧
      s.m Constants.T = Constants.M0 := by
  have hval : (Constants.M0 + s.mt) / (1 - Constants.koef) - (s.mt * Constants.T) / Constants.T
      = (Constants.M0 + Constants.koef * s.mt) / (1 - Constants.koef) := by
    rw [Constants.M0_eq, Constants.koef_eq, Constants.T_eq]
    field_simp
    ring
  refine ⟨?_, hval, ?_, Physics.m_of_ge s _ le_rfl⟩
  · have hcont : Continuous
        (fun t : ℝ => (Constants.M0 + s.mt) / (1 - Constants.koef) - (s.mt * t) / Constants.T) := by
      continuity
    have h1 := (hcont.tendsto Constants.T).mono_left
      (nhdsWithin_le_nhds : nhdsWithin (Constants.T : ℝ) (Set.Iio Constants.T) ≤ nhds Constants.T)
    rw [hval] at h1
    refine h1.congr' ?_
    filter_upwards [self_mem_nhdsWithin] with t ht
    rw [Physics.m_of_lt s t ht]
  · rw [Constants.M0_eq, Constants.koef_eq]
    rw [lt_div_iff₀ (by norm_num)]
    linarith [hfuel.1]

/-- C2 amended, at fuel 100. -/
theorem C2_m_left_limit_witness :
    Filter.Tendsto (fun t : ℝ => ({ Physics.start with mt := 100 } : Physics ℝ).m t)
        (nhdsWithin Constants.T (Set.Iio Constants.T))
        (nhds ((Constants.M0 + Constants.koef * 100) / (1 - Constants.koef))) :=
  (C2_m_left_limit ({ Physics.start with mt := 100 } : Physics ℝ)
    (by norm_num)).1

/-- C3. For every fuel mass and every time `t`, `dm t` is `0` when `t > T`
and `-fuel / T` when `t ≤ T` (so also at `t = T`); for a positive fuel mass
this value is the same strictly negative number at every `t ≤ T`, in
particular on `[0, T]`. -/
theorem C3_dm_values (s : Physics α) (t : α) :
    (t > Constants.T → s.dm t = 0) ∧
      (t ≤ Constants.T → s.dm t = -s.mt / Constants.T) ∧
      s.dm Constants.T = -s.mt / Constants.T ∧
      (0 < s.mt → t ≤ Constants.T → s.dm t = s.dm 0 ∧ s.dm t < 0) := by
  have hT : (0 : α) < Constants.T := by
    rw [Constants.T_eq]
    norm_num
  have hle : ∀ u : α, u ≤ Constants.T → s.dm u = -s.mt / Constants.T := by
    intro u hu
    unfold Physics.dm
    rw [if_neg (not_lt.mpr hu)]
  refine ⟨?_, hle t, hle _ le_rfl, ?_⟩
  · intro h
    unfold Physics.dm
    rw [if_pos h]
    norm_num
  · intro hpos h
    rw [hle t h, hle 0 hT.le]
    exact ⟨rfl, div_neg_of_neg_of_pos (neg_neg_of_pos hpos) hT⟩

/-- C3 at fuel 100: the rate is `0` at `t = 1201` and `-1/12` at `t = 1200`
and at `t = 600`. -/
theorem C3_dm_values_witness :
    ({ Physics.start with mt := 100 } : Physics ℚ).dm 1201 = 0 ∧
      ({ Physics.start with mt := 100 } : Physics ℚ).dm 1200 = -1 / 12 ∧
      ({ Physics.start with mt := 100 } : Physics ℚ).dm 600 = -1 / 12 := by
  have h1 := (C3_dm_values ({ Physics.start with mt := 100 } : Physics ℚ) 1201).1
    (by norm_num [Constants.T])
  have h2 := (C3_dm_values ({ Physics.start with mt := 100 } : Physics ℚ) 1200).2.2.1
  have h3 := (C3_dm_values ({ Physics.start with mt := 100 } : Physics ℚ) 600).2.1
    (by norm_num [Constants.T])
  refine ⟨h1, ?_, ?_⟩
  · rw [Constants.T_eq] at h2
    rw [h2]
    norm_num
  · rw [h3, Constants.T_eq]
    norm_num

/-- C4. For every fuel mass `≥ 0` and all times `t1 ≤ t2` (both before burn
completion, both after it, or on either side of it), `m t2 ≤ m t1`. -/
theorem C4_m_antitone (s : Physics α) (t1 t2 : α) (hfuel : 0 ≤ s.mt) (h : t1 ≤ t2) :
    s.m t2 ≤ s.m t1 := by
  rcases lt_or_le t2 Constants.T with h2 | h2
  · have h1 : t1 < Constants.T := lt_of_le_of_lt h h2
    rw [Physics.m_of_lt_closed s t1 h1, Physics.m_of_lt_closed s t2 h2]
    have hmul : s.mt * t1 ≤ s.mt * t2 := mul_le_mul_of_nonneg_left h hfuel
    have hdiv : s.mt * t1 / 1200 ≤ s.mt * t2 / 1200 :=
      div_le_div_of_nonneg_right hmul (by norm_num)
    linarith
  · rw [Physics.m_of_ge s t2 h2]
    rcases lt_or_le t1 Constants.T with h1 | h1
    · rw [Physics.m_of_lt_closed s t1 h1, Constants.M0_eq]
      rw [Constants.T_eq] at h1
      have hmul : s.mt * t1 ≤ s.mt * 1200 := mul_le_mul_of_nonneg_left h1.le hfuel
      have hdiv : s.mt * t1 / 1200 ≤ s.mt * 1200 / 1200 :=
        div_le_div_of_nonneg_right hmul (by norm_num)
      have e : s.mt * 1200 / 1200 = s.mt := by field_simp
      rw [e] at hdiv
      have e2 : (10 + s.mt) * 20 / 19 = 200 / 19 + s.mt * (20 / 19) := by ring
      rw [e2]
      have : s.mt ≤ s.mt * (20 / 19) := by
        have := mul_le_mul_of_nonneg_left (show (1 : α) ≤ 20 / 19 by norm_num) hfuel
        linarith
      have : (10 : α) ≤ 200 / 19 := by norm_num
      linarith
    · rw [Physics.m_of_ge s t1 h1]

/-- C4 at fuel 100 with `t1 = 600` before and `t2 = 1200` at burn
completion: `m 1200 = 10 ≤ m 600 = 1250 / 19`. -/
theorem C4_m_antitone_witness :
    ({ Physics.start with mt := 100 } : Physics ℚ).m 1200
      ≤ ({ Physics.start with mt := 100 } : Physics ℚ).m 600 :=
  C4_m_antitone ({ Physics.start with mt := 100 } : Physics ℚ) 600 1200
    (by norm_num) (by norm_num)

/-- C5. For all real points `(x1, y1)` and `(x2, y2)`, with `std::sqrt` the
real square root: `distance` is symmetric, non-negative, and zero exactly
when `x1 = x2` and `y1 = y2`. -/
theorem C5_distance_metric (x1 y1 x2 y2 : ℝ) :
    Physics.distance Real.sqrt x1 y1 x2 y2 = Physics.distance Real.sqrt x2 y2 x1 y1 ∧
      0 ≤ Physics.distance Real.sqrt x1 y1 x2 y2 ∧
      (Physics.distance Real.sqrt x1 y1 x2 y2 = 0 ↔ x1 = x2 ∧ y1 = y2) := by
  unfold Physics.distance
  refine ⟨?_, Real.sqrt_nonneg _, ?_⟩
  · have e : (x2 - x1) * (x2 - x1) + (y2 - y1) * (y2 - y1)
        = (x1 - x2) * (x1 - x2) + (y1 - y2) * (y1 - y2) := by ring
    simp only [e]
  · simp only [Real.sqrt_eq_zero']
    constructor
    · intro h
      have hx : (x2 - x1) * (x2 - x1) ≥ 0 := mul_self_nonneg _
      have hy : (y2 - y1) * (y2 - y1) ≥ 0 := mul_self_nonneg _
      have hx0 : (x2 - x1) * (x2 - x1) = 0 := by linarith
      have hy0 : (y2 - y1) * (y2 - y1) = 0 := by linarith
      have hx1 : x2 - x1 = 0 := mul_self_eq_zero.mp hx0
      have hy1 : y2 - y1 = 0 := mul_self_eq_zero.mp hy0
      exact ⟨by linarith, by linarith⟩
    · rintro ⟨rfl, rfl⟩
      simp

end ClaimsMass

/-! ## Claims on the objective function, the detector and the driver -/

section ClaimsDriver

variable {α : Type} [LinearOrderedField α]

/-- C6. For every input `(angle, fuel)` with `angle < 0`, or `angle > 2π`, or
`fuel < 50`, or `fuel > 150`, the objective function returns the sentinel
`DBL_MAX`, the largest finite double, and the statics are as before the call,
whatever the integrator is: `simulate_trajectory` is not entered. -/
theorem C6_bounds_rejection (M_PI : α) (sqrt cos sin : α → α)
    (integ : state_type α → α → α → α → Stepper α) (s : Physics α) (angle fuel : α)
    (h : angle < 0 ∨ angle > 2 * M_PI ∨ fuel < 50 ∨ fuel > 150) :
    OptimizationProblem.call M_PI sqrt cos sin integ s [angle, fuel] = some (s, DBL_MAX) ∧
      (DBL_MAX : α) = (2 - 1 / 2 ^ 52) * 2 ^ 1023 := by
  refine ⟨?_, ?_⟩
  · rw [OptimizationProblem.call_eq, if_pos h]
  · unfold DBL_MAX
    norm_num

/-- C6 at the four inputs of the specification, over the reals with
`M_PI = π`: `angle = -0.1`, `angle = 2π + 0.1`, `fuel = 49.9`, `fuel = 150.1`. -/
theorem C6_bounds_rejection_witness :
    OptimizationProblem.call Real.pi Real.sqrt Real.cos Real.sin probeOnce
        (Physics.start : Physics ℝ) [-0.1, 100] = some (Physics.start, DBL_MAX) ∧
      OptimizationProblem.call Real.pi Real.sqrt Real.cos Real.sin probeOnce
        (Physics.start : Physics ℝ) [2 * Real.pi + 0.1, 100] = some (Physics.start, DBL_MAX) ∧
      OptimizationProblem.call Real.pi Real.sqrt Real.cos Real.sin probeOnce
        (Physics.start : Physics ℝ) [1, 49.9] = some (Physics.start, DBL_MAX) ∧
      OptimizationProblem.call Real.pi Real.sqrt Real.cos Real.sin probeOnce
        (Physics.start : Physics ℝ) [1, 150.1] = some (Physics.start, DBL_MAX) :=
  ⟨(C6_bounds_rejection Real.pi Real.sqrt Real.cos Real.sin probeOnce Physics.start
      (-0.1) 100 (Or.inl (by norm_num))).1,
    (C6_bounds_rejection Real.pi Real.sqrt Real.cos Real.sin probeOnce Physics.start
      (2 * Real.pi + 0.1) 100 (Or.inr (Or.inl (by norm_num)))).1,
    (C6_bounds_rejection Real.pi Real.sqrt Real.cos Real.sin probeOnce Physics.start
      1 49.9 (Or.inr (Or.inr (Or.inl (by norm_num))))).1,
    (C6_bounds_rejection Real.pi Real.sqrt Real.cos Real.sin probeOnce Physics.start
      1 150.1 (Or.inr (Or.inr (Or.inr (by norm_num))))).1⟩

/-- C7 as stated fails: at `angle = 2π` exactly and `fuel = 100` (over the
reals, `M_PI = π`, from the statics of program start) the objective function
does not return the sentinel with the statics untouched; it runs
`simulate_trajectory`, which leaves `mt = 100`. -/
theorem C7_counterexample :
    OptimizationProblem.call Real.pi Real.sqrt Real.cos Real.sin probeOnce
        (Physics.start : Physics ℝ) [2 * Real.pi, 100] =
      some (Physics.simulate_trajectory Real.sqrt Real.cos Real.sin probeOnce
        Physics.start (2 * Real.pi) 100) ∧
    OptimizationProblem.call Real.pi Real.sqrt Real.cos Real.sin probeOnce
        (Physics.start : Physics ℝ) [2 * Real.pi, 100] ≠ some (Physics.start, DBL_MAX) := by
  have hrun : OptimizationProblem.call Real.pi Real.sqrt Real.cos Real.sin probeOnce
      (Physics.start : Physics ℝ) [2 * Real.pi, 100] =
      some (Physics.simulate_trajectory Real.sqrt Real.cos Real.sin probeOnce
        Physics.start (2 * Real.pi) 100) := by
    rw [OptimizationProblem.call_eq, if_neg]
    have hpi := Real.pi_pos
    intro h
    rcases h with h | h | h | h
    · linarith
    · exact lt_irrefl _ h
    · norm_num at h
    · norm_num at h
  refine ⟨hrun, ?_⟩
  rw [hrun]
  intro h
  have hmt := Physics.simulate_trajectory_mt Real.sqrt Real.cos Real.sin probeOnce
    (Physics.start : Physics ℝ) (2 * Real.pi) 100
  rw [(Prod.ext_iff.mp (Option.some.inj h)).1] at hmt
  norm_num [Physics.start] at hmt

/-- C7 amended. The angle bounds are the closed interval `[0, 2π]`: for every
input with `angle < 0`, or `angle > 2π`, or `fuel` outside `[50, 150]`, the
objective function returns the sentinel `DBL_MAX` and leaves the statics as
they were (no simulation is run); for every input with `0 ≤ angle ≤ 2π` and
`50 ≤ fuel ≤ 150`, in particular at `angle = 2π` exactly, it runs
`simulate_trajectory` and returns its result. -/
theorem C7_closed_angle_bounds (M_PI : α) (sqrt cos sin : α → α)
    (integ : state_type α → α → α → α → Stepper α) (s : Physics α) (angle fuel : α) :
    ((angle < 0 ∨ 2 * M_PI < angle ∨ fuel < 50 ∨ 150 < fuel) →
        OptimizationProblem.call M_PI sqrt cos sin integ s [angle, fuel] = some (s, DBL_MAX)) ∧
      ((0 ≤ angle ∧ angle ≤ 2 * M_PI) ∧ (50 ≤ fuel ∧ fuel ≤ 150) →
        OptimizationProblem.call M_PI sqrt cos sin integ s [angle, fuel] =
          some (Physics.simulate_trajectory sqrt cos sin integ s angle fuel)) := by
  constructor
  · intro h
    rw [OptimizationProblem.call_eq, if_pos h]
  · rintro ⟨⟨h0, h1⟩, h2, h3⟩
    rw [OptimizationProblem.call_eq, if_neg]
    rintro (h | h | h | h)
    · exact absurd h (not_lt.mpr h0)
    · exact absurd h (not_lt.mpr h1)
    · exact absurd h (not_lt.mpr h2)
    · exact absurd h (not_lt.mpr h3)

/-- C7 amended, over the reals with `M_PI = π`: rejection at `angle = 7`
(above `2π`), simulation at `angle = 2π` exactly, both with `fuel = 100`. -/
theorem C7_closed_angle_bounds_witness :
    OptimizationProblem.call Real.pi Real.sqrt Real.cos Real.sin probeOnce
        (Physics.start : Physics ℝ) [7, 100] = some (Physics.start, DBL_MAX) ∧
      OptimizationProblem.call Real.pi Real.sqrt Real.cos Real.sin probeOnce
        (Physics.start : Physics ℝ) [2 * Real.pi, 100] =
          some (Physics.simulate_trajectory Real.sqrt Real.cos Real.sin probeOnce
            Physics.start (2 * Real.pi) 100) :=
  ⟨(C7_closed_angle_bounds Real.pi Real.sqrt Real.cos Real.sin probeOnce Physics.start
      7 100).1 (Or.inr (Or.inl (by linarith [Real.pi_lt_d2]))),
    (C7_closed_angle_bounds Real.pi Real.sqrt Real.cos Real.sin probeOnce Physics.start
      (2 * Real.pi) 100).2
      ⟨⟨by linarith [Real.pi_pos], le_rfl⟩, by norm_num, by norm_num⟩⟩

/-- C8. Over the reals, with `std::sqrt` the real square root (so separations
are non-negative reals). Let A and B be calls of `simulate_trajectory` that
complete without a crossing (flag clear after the call) and C a call
that is ended by a crossing (flag set after the call), for any integrators,
prior statics and inputs. Then each non-crossing call returns `min_distance + 1e6`,
where `min_distance` is the least of `DBL_MAX` and the separations observed
in the call and is non-negative; if `min_distance` of A is below that of B
then the cost of A is below the cost of B; and the cost of C, which is
`final_distance` and below `R3 * 10 = 111000`, is below the cost of A. -/
theorem C8_cost_ordering (cos sin : ℝ → ℝ)
    (iA iB iC : state_type ℝ → ℝ → ℝ → ℝ → Stepper ℝ)
    (sA sB sC : Physics ℝ) (aA fA aB fB aC fC : ℝ)
    (hA : (Physics.simulate_trajectory Real.sqrt cos sin iA sA aA fA).1.trajectory_crossed
      = false)
    (hB : (Physics.simulate_trajectory Real.sqrt cos sin iB sB aB fB).1.trajectory_crossed
      = false)
    (hC : (Physics.simulate_trajectory Real.sqrt cos sin iC sC aC fC).1.trajectory_crossed
      = true) :
    ((Physics.simulate_trajectory Real.sqrt cos sin iA sA aA fA).1.min_distance <
        (Physics.simulate_trajectory Real.sqrt cos sin iB sB aB fB).1.min_distance →
      (Physics.simulate_trajectory Real.sqrt cos sin iA sA aA fA).2 <
        (Physics.simulate_trajectory Real.sqrt cos sin iB sB aB fB).2) ∧
    (Physics.simulate_trajectory Real.sqrt cos sin iC sC aC fC).2 <
      (Physics.simulate_trajectory Real.sqrt cos sin iA sA aA fA).2 ∧
    (Physics.simulate_trajectory Real.sqrt cos sin iC sC aC fC).2 < 111000 ∧
    (Physics.simulate_trajectory Real.sqrt cos sin iA sA aA fA).2 =
      (Physics.simulate_trajectory Real.sqrt cos sin iA sA aA fA).1.min_distance + 1e6 ∧
    (Physics.simulate_trajectory Real.sqrt cos sin iA sA aA fA).1.min_distance =
      (Physics.separations Real.sqrt
        (iA (Physics.initial_state Real.sqrt cos sin aA) 0.0 (60.0 * 60 * 24) 0.1)
        (Physics.reset sA fA)).foldl min DBL_MAX ∧
    0 ≤ (Physics.simulate_trajectory Real.sqrt cos sin iA sA aA fA).1.min_distance := by
  have oA := (Physics.simulate_trajectory_outcome Real.sqrt cos sin Real.sqrt_nonneg
    iA sA aA fA).2 hA
  have oB := (Physics.simulate_trajectory_outcome Real.sqrt cos sin Real.sqrt_nonneg
    iB sB aB fB).2 hB
  have oC := (Physics.simulate_trajectory_outcome Real.sqrt cos sin Real.sqrt_nonneg
    iC sC aC fC).1 hC
  have hR : (Constants.R3 : ℝ) * 10 = 111000 := Constants.R3_mul_ten
  have hC2 := oC.2
  rw [hR] at hC2
  refine ⟨fun hlt => ?_, ?_, hC2, oA.1,
    Physics.simulate_trajectory_min_distance Real.sqrt cos sin iA sA aA fA, oA.2⟩
  · rw [oA.1, oB.1]
    linarith
  · rw [oA.1]
    have h6 : (111000 : ℝ) < 1e6 := by norm_num
    linarith [oA.2]

/-- C9. In every call of `simulate_trajectory` (any prior statics, angle, fuel
and integrator) whose integrator begins by asking for the derivative at a
state `y` and time `t`, that first evaluation of `calculateForces` happens on
the reset statics, returns a derivative (does not throw) and leaves
`trajectory_crossed` clear, whatever the separation of `y` is; the call goes
on with the integrator's continuation. -/
theorem C9_first_evaluation (sqrt cos sin : α → α)
    (integ : state_type α → α → α → α → Stepper α) (s : Physics α) (angle fuel : α)
    (y : state_type α) (t : α) (k : state_type α → Stepper α)
    (hfirst : integ (Physics.initial_state sqrt cos sin angle) 0.0 (60.0 * 60 * 24) 0.1 =
      Stepper.sys y t k) :
    ∃ f s1, Physics.calculateForces sqrt (Physics.reset s fuel) y t = (s1, some f) ∧
      s1.trajectory_crossed = false ∧
      s1.prev_distance = Physics.distance sqrt (y 0) (y 1) (y 2) (y 3) ∧
      Physics.simulate_trajectory sqrt cos sin integ s angle fuel =
        Physics.finish (Physics.run sqrt (k f) s1) := by
  have hguard : ¬ (((Physics.reset s fuel).trajectory_crossed = false ∧
      (Physics.reset s fuel).prev_distance ≠ 0) ∧
      Physics.distance sqrt (y 0) (y 1) (y 2) (y 3) < Constants.R3 * 10) :=
    fun h => h.1.2 rfl
  obtain ⟨f, hf⟩ := Physics.calculateForces_pass sqrt (Physics.reset s fuel) y t hguard
  refine ⟨f, _, hf, rfl, rfl, ?_⟩
  rw [Physics.simulate_trajectory_eq, hfirst, Physics.run_sys_some sqrt _ _ y f t k hf]

/-- C8 with three sample calls over the reals: A visits a state of
separation 1 once and B a state of separation 2 once (no crossing, costs
`1 + 1e6 < 2 + 1e6`), C visits separation 1 twice (crossing at the second
evaluation, cost 1). -/
theorem C8_cost_ordering_witness :
    (Physics.simulate_trajectory Real.sqrt Real.cos Real.sin
        (visit [at_separation 1]) Physics.start 0 100).1.min_distance <
      (Physics.simulate_trajectory Real.sqrt Real.cos Real.sin
        (visit [at_separation 2]) Physics.start 0 100).1.min_distance ∧
    (Physics.simulate_trajectory Real.sqrt Real.cos Real.sin
        (visit [at_separation 1]) Physics.start 0 100).2 <
      (Physics.simulate_trajectory Real.sqrt Real.cos Real.sin
        (visit [at_separation 2]) Physics.start 0 100).2 ∧
    (Physics.simulate_trajectory Real.sqrt Real.cos Real.sin
        (visit [at_separation 1, at_separation 1]) Physics.start 0 100).2 <
      (Physics.simulate_trajectory Real.sqrt Real.cos Real.sin
        (visit [at_separation 1]) Physics.start 0 100).2 := by
  have hA := Physics.simulate_once 1 (by norm_num) (by norm_num) Physics.start 0 100
  have hB := Physics.simulate_once 2 (by norm_num) (by norm_num) Physics.start 0 100
  have hC := Physics.simulate_twice 1 1 (by norm_num) (by norm_num) (by norm_num)
    Physics.start 0 100
  have hlt : (Physics.simulate_trajectory Real.sqrt Real.cos Real.sin
        (visit [at_separation 1]) Physics.start 0 100).1.min_distance <
      (Physics.simulate_trajectory Real.sqrt Real.cos Real.sin
        (visit [at_separation 2]) Physics.start 0 100).1.min_distance := by
    rw [hA, hB]
    norm_num
  have h := C8_cost_ordering Real.cos Real.sin (visit [at_separation 1])
    (visit [at_separation 2]) (visit [at_separation 1, at_separation 1])
    Physics.start Physics.start Physics.start 0 100 0 100 0 100
    (by rw [hA]; rfl) (by rw [hB]; rfl) (by rw [hC])
  exact ⟨hlt, h.1 hlt, h.2.1⟩

/-- C9 at a call over the reals whose integrator first asks at a state of
separation 1, which is below `R3 * 10`. -/
theorem C9_first_evaluation_witness :
    Physics.distance Real.sqrt (at_separation (1 : ℝ) 0) (at_separation (1 : ℝ) 1)
        (at_separation (1 : ℝ) 2) (at_separation (1 : ℝ) 3) < Constants.R3 * 10 ∧
    ∃ f s1, Physics.calculateForces Real.sqrt (Physics.reset Physics.start 100)
        (at_separation 1) 0.0 = (s1, some f) ∧
      s1.trajectory_crossed = false ∧
      s1.prev_distance = Physics.distance Real.sqrt (at_separation (1 : ℝ) 0)
        (at_separation (1 : ℝ) 1) (at_separation (1 : ℝ) 2) (at_separation (1 : ℝ) 3) ∧
      Physics.simulate_trajectory Real.sqrt Real.cos Real.sin
          (visit [at_separation 1, at_separation 1]) Physics.start 0 100 =
        Physics.finish (Physics.run Real.sqrt
          (visit [at_separation 1] (Physics.initial_state Real.sqrt Real.cos Real.sin 0)
            0.0 (60.0 * 60 * 24) 0.1) s1) :=
  ⟨by rw [Physics.distance_at_separation 1 (by norm_num), Constants.R3_mul_ten]; norm_num,
    C9_first_evaluation Real.sqrt Real.cos Real.sin
      (visit [at_separation 1, at_separation 1]) Physics.start 0 100
      (at_separation 1) 0.0
      (fun _ => visit [at_separation 1] (Physics.initial_state Real.sqrt Real.cos Real.sin 0)
        0.0 (60.0 * 60 * 24) 0.1) rfl⟩

end ClaimsDriver

/-! ## Shared lemmas: the flag, the last separation, the reset -/

section Flag

variable {α : Type} [LinearOrderedField α]

/-- A run that starts with the flag clear ends by the exception exactly when
it leaves the flag set. -/
theorem Physics.run_flag (sqrt : α → α) (st : Stepper α) :
    ∀ s : Physics α, s.trajectory_crossed = false →
      (Physics.run sqrt st s).1.trajectory_crossed = (Physics.run sqrt st s).2 := by
  induction st with
  | done =>
    intro s hc
    rw [Physics.run_done]
    exact hc
  | sys y t k ih =>
    intro s hc
    by_cases h : (s.trajectory_crossed = false ∧ s.prev_distance ≠ 0) ∧
        Physics.distance sqrt (y 0) (y 1) (y 2) (y 3) < Constants.R3 * 10
    · rw [Physics.run_sys_none sqrt s _ y t k
        (Physics.calculateForces_fire sqrt s y t h.1.1 h.1.2 h.2)]
    · obtain ⟨f, hf⟩ := Physics.calculateForces_pass sqrt s y t h
      rw [Physics.run_sys_some sqrt s _ y f t k hf]
      exact ih f _ hc

/-- In a run ended by the exception, `final_distance` is the separation of
the last evaluation, the one that threw. -/
theorem Physics.run_final_distance (sqrt : α → α) (st : Stepper α) :
    ∀ s : Physics α, s.trajectory_crossed = false → (Physics.run sqrt st s).2 = true →
      (Physics.separations sqrt st s).getLast? =
        some (Physics.run sqrt st s).1.final_distance := by
  induction st with
  | done =>
    intro s _ hr
    rw [Physics.run_done] at hr
    cases hr
  | sys y t k ih =>
    intro s hc hr
    by_cases h : (s.trajectory_crossed = false ∧ s.prev_distance ≠ 0) ∧
        Physics.distance sqrt (y 0) (y 1) (y 2) (y 3) < Constants.R3 * 10
    · have hf := Physics.calculateForces_fire sqrt s y t h.1.1 h.1.2 h.2
      rw [Physics.run_sys_none sqrt s _ y t k hf, Physics.separations, hf]
      rfl
    · obtain ⟨f, hf⟩ := Physics.calculateForces_pass sqrt s y t h
      rw [Physics.run_sys_some sqrt s _ y f t k hf] at hr ⊢
      rw [Physics.separations, hf]
      have hi := ih f _ (by exact hc) hr
      rw [List.getLast?_cons, hi]
      rfl

/-- The reset overwrites every static: its result does not depend on the
statics before the call. -/
theorem Physics.reset_eq (s1 s2 : Physics α) (fuel : α) :
    Physics.reset s1 fuel = Physics.reset s2 fuel := rfl

end Flag

/-! ## Shared lemmas: the geometry of the initial state -/

section Geometry

theorem vec8_four {β : Type} (a0 a1 a2 a3 a4 a5 a6 a7 : β) :
    (![a0, a1, a2, a3, a4, a5, a6, a7] : Fin 8 → β) 4 = a4 := rfl

theorem vec8_five {β : Type} (a0 a1 a2 a3 a4 a5 a6 a7 : β) :
    (![a0, a1, a2, a3, a4, a5, a6, a7] : Fin 8 → β) 5 = a5 := rfl

/-- A vector of length `A` times a rotated unit vector has squared length
`A * A`. -/
theorem Physics.rotated_sq (A r3x r3y c s : ℝ)
    (hr : 0 < r3x * r3x + r3y * r3y) (hcs : c * c + s * s = 1) :
    A * (r3x * c - r3y * s) / Real.sqrt (r3x * r3x + r3y * r3y) *
        (A * (r3x * c - r3y * s) / Real.sqrt (r3x * r3x + r3y * r3y)) +
      A * (r3x * s + r3y * c) / Real.sqrt (r3x * r3x + r3y * r3y) *
        (A * (r3x * s + r3y * c) / Real.sqrt (r3x * r3x + r3y * r3y)) = A * A := by
  have hR : Real.sqrt (r3x * r3x + r3y * r3y) * Real.sqrt (r3x * r3x + r3y * r3y) =
      r3x * r3x + r3y * r3y := Real.mul_self_sqrt hr.le
  have hRpos : 0 < Real.sqrt (r3x * r3x + r3y * r3y) := Real.sqrt_pos.mpr hr
  generalize Real.sqrt (r3x * r3x + r3y * r3y) = R at hR hRpos
  have hne : R ≠ 0 := ne_of_gt hRpos
  field_simp
  linear_combination (A * A * (r3x * r3x + r3y * r3y)) * hcs - A * A * hR

/-- The point `A * (rotated unit vector) + p` is at distance `A` from `p`. -/
theorem Physics.orbit_distance (px py A r3x r3y c s : ℝ) (hA : 0 ≤ A)
    (hr : 0 < r3x * r3x + r3y * r3y) (hcs : c * c + s * s = 1) :
    Physics.distance Real.sqrt
        (A * (r3x * c - r3y * s) / Real.sqrt (r3x * r3x + r3y * r3y) + px)
        (A * (r3x * s + r3y * c) / Real.sqrt (r3x * r3x + r3y * r3y) + py) px py = A := by
  unfold Physics.distance
  have e : ∀ a b p q : ℝ, (p - (a + p)) * (p - (a + p)) + (q - (b + q)) * (q - (b + q)) =
      a * a + b * b := fun a b p q => by ring
  simp only [e]
  rw [Physics.rotated_sq A r3x r3y c s hr hcs, Real.sqrt_mul_self hA]

/-- The velocity `(-v0 * b / r0, v0 * a / r0)` with `r0 = sqrt (a * a + b * b)`
is perpendicular to `(a, b)` and, when `(a, b)` has positive length and
`v0 ≥ 0`, has length `v0`. -/
theorem Physics.orbit_velocity (a b v0 px py : ℝ) (hv : 0 ≤ v0)
    (hab : 0 < a * a + b * b) :
    -v0 * b / Real.sqrt (a * a + b * b) * (a + px - px) +
        v0 * a / Real.sqrt (a * a + b * b) * (b + py - py) = 0 ∧
    Real.sqrt (-v0 * b / Real.sqrt (a * a + b * b) * (-v0 * b / Real.sqrt (a * a + b * b)) +
        v0 * a / Real.sqrt (a * a + b * b) * (v0 * a / Real.sqrt (a * a + b * b))) = v0 := by
  have hR : Real.sqrt (a * a + b * b) * Real.sqrt (a * a + b * b) = a * a + b * b :=
    Real.mul_self_sqrt hab.le
  have hRpos : 0 < Real.sqrt (a * a + b * b) := Real.sqrt_pos.mpr hab
  generalize Real.sqrt (a * a + b * b) = R at hR hRpos
  have hne : R ≠ 0 := ne_of_gt hRpos
  constructor
  · ring
  · have e : -v0 * b / R * (-v0 * b / R) + v0 * a / R * (v0 * a / R) = v0 * v0 := by
      field_simp
      linear_combination (-(v0 * v0)) * hR
    rw [e, Real.sqrt_mul_self hv]

end Geometry

/-! ## Claims on crossing monotonicity, determinism and the initial state -/

section ClaimsCall

variable {α : Type} [LinearOrderedField α]

/-- C11. An evaluation of `calculateForces` on statics whose flag
`trajectory_crossed` is set leaves the flag set and `final_distance`
unchanged (and does not throw). The evaluation that makes the transition
stores its own separation in `final_distance`. In a call that ends by a
crossing the throwing evaluation is the last one, and the value
`simulate_trajectory` returns is `final_distance`, the separation computed
in that evaluation. -/
theorem C11_crossing_monotone (sqrt cos sin : α → α)
    (integ : state_type α → α → α → α → Stepper α) (s s0 : Physics α) (angle fuel : α)
    (y : state_type α) (t : α) :
    (s.trajectory_crossed = true →
      (Physics.calculateForces sqrt s y t).1.trajectory_crossed = true ∧
      (Physics.calculateForces sqrt s y t).1.final_distance = s.final_distance ∧
      (Physics.calculateForces sqrt s y t).2.isSome = true) ∧
    (s.trajectory_crossed = false →
      (Physics.calculateForces sqrt s y t).1.trajectory_crossed = true →
      (Physics.calculateForces sqrt s y t).1.final_distance =
        Physics.distance sqrt (y 0) (y 1) (y 2) (y 3) ∧
      (Physics.calculateForces sqrt s y t).2 = none) ∧
    ((Physics.simulate_trajectory sqrt cos sin integ s0 angle fuel).1.trajectory_crossed
        = true →
      (Physics.simulate_trajectory sqrt cos sin integ s0 angle fuel).2 =
        (Physics.simulate_trajectory sqrt cos sin integ s0 angle fuel).1.final_distance ∧
      (Physics.separations sqrt
          (integ (Physics.initial_state sqrt cos sin angle) 0.0 (60.0 * 60 * 24) 0.1)
          (Physics.reset s0 fuel)).getLast? =
        some (Physics.simulate_trajectory sqrt cos sin integ s0 angle fuel).2) := by
  refine ⟨fun hc => ?_, fun hc hc1 => ?_, fun hc => ?_⟩
  · have hg : ¬ ((s.trajectory_crossed = false ∧ s.prev_distance ≠ 0) ∧
        Physics.distance sqrt (y 0) (y 1) (y 2) (y 3) < Constants.R3 * 10) := by
      intro h
      rw [hc] at h
      exact Bool.noConfusion h.1.1
    have hp := Physics.calculateForces_pass_fst sqrt s y t hg
    rw [hp.1]
    exact ⟨hc, rfl, hp.2⟩
  · by_cases hg : (s.trajectory_crossed = false ∧ s.prev_distance ≠ 0) ∧
        Physics.distance sqrt (y 0) (y 1) (y 2) (y 3) < Constants.R3 * 10
    · rw [Physics.calculateForces_fire sqrt s y t hg.1.1 hg.1.2 hg.2]
      exact ⟨rfl, rfl⟩
    · have hp := Physics.calculateForces_pass_fst sqrt s y t hg
      rw [hp.1] at hc1
      exact Bool.noConfusion (hc.symm.trans hc1)
  · have hflag := Physics.run_flag sqrt
      (integ (Physics.initial_state sqrt cos sin angle) 0.0 (60.0 * 60 * 24) 0.1)
      (Physics.reset s0 fuel) rfl
    have hlast := Physics.run_final_distance sqrt
      (integ (Physics.initial_state sqrt cos sin angle) 0.0 (60.0 * 60 * 24) 0.1)
      (Physics.reset s0 fuel) rfl
    rw [Physics.simulate_trajectory_eq] at hc ⊢
    revert hc hflag hlast
    generalize Physics.run sqrt _ (Physics.reset s0 fuel) = r
    rcases r with ⟨s1, b⟩
    cases b
    · intro hc hflag _
      exact Bool.noConfusion ((show s1.trajectory_crossed = false from hflag).symm.trans hc)
    · intro _ _ hlast
      exact ⟨rfl, hlast rfl⟩

/-- C11 over the reals, on the call that asks at separation 5 and then at
separation 1: the second evaluation makes the transition, the call returns 1
and leaves `final_distance = 1`; a further evaluation at separation 2 on the
statics after the call keeps the flag and `final_distance = 1`. -/
theorem C11_crossing_monotone_witness :
    (Physics.simulate_trajectory Real.sqrt Real.cos Real.sin
        (visit [at_separation 5, at_separation 1]) Physics.start 0 100).1.trajectory_crossed
      = true ∧
    (Physics.simulate_trajectory Real.sqrt Real.cos Real.sin
        (visit [at_separation 5, at_separation 1]) Physics.start 0 100).2 = 1 ∧
    (Physics.calculateForces Real.sqrt
        (Physics.simulate_trajectory Real.sqrt Real.cos Real.sin
          (visit [at_separation 5, at_separation 1]) Physics.start 0 100).1
        (at_separation 2) 0).1.final_distance = 1 := by
  have hC := Physics.simulate_twice 5 1 (by norm_num) (by norm_num) (by norm_num)
    Physics.start 0 100
  have hflag : (Physics.simulate_trajectory Real.sqrt Real.cos Real.sin
      (visit [at_separation 5, at_separation 1]) Physics.start 0 100).1.trajectory_crossed
      = true := by
    rw [hC]
  have h := C11_crossing_monotone Real.sqrt Real.cos Real.sin
    (visit [at_separation 5, at_separation 1])
    (Physics.simulate_trajectory Real.sqrt Real.cos Real.sin
      (visit [at_separation 5, at_separation 1]) Physics.start 0 100).1
    Physics.start 0 100 (at_separation 2) 0
  refine ⟨hflag, ?_, ?_⟩
  · rw [hC]
  · rw [(h.1 hflag).2.1, hC]

/-- C12. For every `(angle, fuel)` and every two values of the statics before
the call, `simulate_trajectory` returns the same cost and leaves the same
statics (the integrator being a deterministic function of the answers of the
force model): the call overwrites all seven statics before it reads any. So
of two successive calls of the objective function with the same input, the
second starting from the statics left by the first, the second returns the
value of the first. -/
theorem C12_determinism (M_PI : α) (sqrt cos sin : α → α)
    (integ : state_type α → α → α → α → Stepper α) (s1 s2 : Physics α) (angle fuel : α)
    (r1 r2 : Physics α × α)
    (h1 : OptimizationProblem.call M_PI sqrt cos sin integ s1 [angle, fuel] = some r1)
    (h2 : OptimizationProblem.call M_PI sqrt cos sin integ r1.1 [angle, fuel] = some r2) :
    Physics.simulate_trajectory sqrt cos sin integ s1 angle fuel =
      Physics.simulate_trajectory sqrt cos sin integ s2 angle fuel ∧
    r2.2 = r1.2 := by
  have hdet : ∀ a b : Physics α, Physics.simulate_trajectory sqrt cos sin integ a angle fuel =
      Physics.simulate_trajectory sqrt cos sin integ b angle fuel := by
    intro a b
    rw [Physics.simulate_trajectory_eq, Physics.simulate_trajectory_eq, Physics.reset_eq a b]
  refine ⟨hdet s1 s2, ?_⟩
  rw [OptimizationProblem.call_eq] at h1 h2
  by_cases hb : angle < 0 ∨ angle > 2 * M_PI ∨ fuel < 50 ∨ fuel > 150
  · rw [if_pos hb] at h1 h2
    rw [← Option.some.inj h1, ← Option.some.inj h2]
  · rw [if_neg hb] at h1 h2
    rw [← Option.some.inj h1, ← Option.some.inj h2, hdet r1.1 s1]

/-- C12 over the reals with `M_PI = π`: two successive calls
`objective(0.0, 100.0)` from the statics of program start return the same
value. -/
theorem C12_determinism_witness :
    (Physics.simulate_trajectory Real.sqrt Real.cos Real.sin probeOnce
        (Physics.simulate_trajectory Real.sqrt Real.cos Real.sin probeOnce
          Physics.start 0.0 100.0).1 0.0 100.0).2 =
      (Physics.simulate_trajectory Real.sqrt Real.cos Real.sin probeOnce
        Physics.start 0.0 100.0).2 := by
  have hin : ¬ ((0.0 : ℝ) < 0 ∨ (0.0 : ℝ) > 2 * Real.pi ∨ (100.0 : ℝ) < 50 ∨
      (100.0 : ℝ) > 150) := by
    have hpi := Real.pi_pos
    rintro (h | h | h | h)
    · norm_num at h
    · norm_num at h
      linarith
    · norm_num at h
    · norm_num at h
  exact (C12_determinism Real.pi Real.sqrt Real.cos Real.sin probeOnce
    Physics.start Physics.start 0.0 100.0
    (Physics.simulate_trajectory Real.sqrt Real.cos Real.sin probeOnce Physics.start 0.0 100.0)
    (Physics.simulate_trajectory Real.sqrt Real.cos Real.sin probeOnce
      (Physics.simulate_trajectory Real.sqrt Real.cos Real.sin probeOnce
        Physics.start 0.0 100.0).1 0.0 100.0)
    (by rw [OptimizationProblem.call_eq, if_neg hin])
    (by rw [OptimizationProblem.call_eq, if_neg hin])).2

/-- C13. Over the reals, with the real square root, cosine and sine: for
every angle `θ`, fuel and prior statics, `simulate_trajectory` runs the
integrator, whatever it is, on the state `y = initial_state θ` from `t = 0`
with the statics `reset s fuel`, which hold the planet position of the call,
and returns by `finish`. That state `y` has the rocket at
`planet + (R2 + H) * (u rotated by θ)`, where `u` is the unit vector from the
planet position of the call to the satellite; so the rocket is at distance
exactly `R2 + H` from the planet position, and its velocity `(y[4], y[5])` is
perpendicular to the planet-to-rocket vector and has magnitude
`sqrt (G * M2 / (R2 + H))`. -/
theorem C13_initial_state (θ fuel : ℝ) (s : Physics ℝ) :
    (∀ integ : state_type ℝ → ℝ → ℝ → ℝ → Stepper ℝ,
      Physics.simulate_trajectory Real.sqrt Real.cos Real.sin integ s θ fuel =
        Physics.finish (Physics.run Real.sqrt
          (integ (Physics.initial_state Real.sqrt Real.cos Real.sin θ) 0.0 (60.0 * 60 * 24) 0.1)
          (Physics.reset s fuel))) ∧
    Physics.initial_state Real.sqrt Real.cos Real.sin θ 0 =
      (Constants.R2 + Constants.H) *
        ((Physics.initial_state Real.sqrt Real.cos Real.sin θ 2 - (Physics.reset s fuel).r12x) /
            Physics.distance Real.sqrt (Physics.reset s fuel).r12x (Physics.reset s fuel).r12y
              (Physics.initial_state Real.sqrt Real.cos Real.sin θ 2)
              (Physics.initial_state Real.sqrt Real.cos Real.sin θ 3) * Real.cos θ -
          (Physics.initial_state Real.sqrt Real.cos Real.sin θ 3 - (Physics.reset s fuel).r12y) /
            Physics.distance Real.sqrt (Physics.reset s fuel).r12x (Physics.reset s fuel).r12y
              (Physics.initial_state Real.sqrt Real.cos Real.sin θ 2)
              (Physics.initial_state Real.sqrt Real.cos Real.sin θ 3) * Real.sin θ) +
        (Physics.reset s fuel).r12x ∧
    Physics.initial_state Real.sqrt Real.cos Real.sin θ 1 =
      (Constants.R2 + Constants.H) *
        ((Physics.initial_state Real.sqrt Real.cos Real.sin θ 2 - (Physics.reset s fuel).r12x) /
            Physics.distance Real.sqrt (Physics.reset s fuel).r12x (Physics.reset s fuel).r12y
              (Physics.initial_state Real.sqrt Real.cos Real.sin θ 2)
              (Physics.initial_state Real.sqrt Real.cos Real.sin θ 3) * Real.sin θ +
          (Physics.initial_state Real.sqrt Real.cos Real.sin θ 3 - (Physics.reset s fuel).r12y) /
            Physics.distance Real.sqrt (Physics.reset s fuel).r12x (Physics.reset s fuel).r12y
              (Physics.initial_state Real.sqrt Real.cos Real.sin θ 2)
              (Physics.initial_state Real.sqrt Real.cos Real.sin θ 3) * Real.cos θ) +
        (Physics.reset s fuel).r12y ∧
    Physics.distance Real.sqrt
        (Physics.initial_state Real.sqrt Real.cos Real.sin θ 0)
        (Physics.initial_state Real.sqrt Real.cos Real.sin θ 1)
        (Physics.reset s fuel).r12x (Physics.reset s fuel).r12y =
      Constants.R2 + Constants.H ∧
    Physics.initial_state Real.sqrt Real.cos Real.sin θ 4 *
          (Physics.initial_state Real.sqrt Real.cos Real.sin θ 0 - (Physics.reset s fuel).r12x) +
        Physics.initial_state Real.sqrt Real.cos Real.sin θ 5 *
          (Physics.initial_state Real.sqrt Real.cos Real.sin θ 1 - (Physics.reset s fuel).r12y)
      = 0 ∧
    Real.sqrt (Physics.initial_state Real.sqrt Real.cos Real.sin θ 4 *
          Physics.initial_state Real.sqrt Real.cos Real.sin θ 4 +
        Physics.initial_state Real.sqrt Real.cos Real.sin θ 5 *
          Physics.initial_state Real.sqrt Real.cos Real.sin θ 5) =
      Real.sqrt (Constants.G * Constants.M2 / (Constants.R2 + Constants.H)) := by
  have hcs : Real.cos θ * Real.cos θ + Real.sin θ * Real.sin θ = 1 := by
    have := Real.cos_sq_add_sin_sq θ
    nlinarith [this]
  have hA : (0 : ℝ) < Constants.R2 + Constants.H := by
    norm_num [Constants.R2, Constants.H]
  have hr : (0 : ℝ) < (-166476539755.17 - -166486522781.19) * (-166476539755.17 - -166486522781.19)
      + (-220575669506.13 - -149495158174.03) * (-220575669506.13 - -149495158174.03) := by
    norm_num
  have hsq := Physics.rotated_sq (Constants.R2 + Constants.H)
    (-166476539755.17 - -166486522781.19) (-220575669506.13 - -149495158174.03)
    (Real.cos θ) (Real.sin θ) hr hcs
  have hvel := Physics.orbit_velocity
    ((Constants.R2 + Constants.H) *
      ((-166476539755.17 - -166486522781.19) * Real.cos θ -
        (-220575669506.13 - -149495158174.03) * Real.sin θ) /
      Real.sqrt ((-166476539755.17 - -166486522781.19) * (-166476539755.17 - -166486522781.19)
        + (-220575669506.13 - -149495158174.03) * (-220575669506.13 - -149495158174.03)))
    ((Constants.R2 + Constants.H) *
      ((-166476539755.17 - -166486522781.19) * Real.sin θ +
        (-220575669506.13 - -149495158174.03) * Real.cos θ) /
      Real.sqrt ((-166476539755.17 - -166486522781.19) * (-166476539755.17 - -166486522781.19)
        + (-220575669506.13 - -149495158174.03) * (-220575669506.13 - -149495158174.03)))
    (1.0 * Real.sqrt (Constants.G * Constants.M2 / (Constants.R2 + Constants.H)))
    (-166486522781.19) (-149495158174.03)
    (mul_nonneg (by norm_num) (Real.sqrt_nonneg _))
    (by rw [hsq]; exact mul_pos hA hA)
  refine ⟨fun integ =>
    Physics.simulate_trajectory_eq Real.sqrt Real.cos Real.sin integ s θ fuel, ?_, ?_, ?_, ?_, ?_⟩
  · unfold Physics.initial_state Physics.distance Physics.reset
    simp only [Matrix.cons_val_zero, Matrix.cons_val_one, Matrix.head_cons,
      Matrix.cons_val_two, Matrix.cons_val_three, Matrix.tail_cons]
    ring
  · unfold Physics.initial_state Physics.distance Physics.reset
    simp only [Matrix.cons_val_zero, Matrix.cons_val_one, Matrix.head_cons,
      Matrix.cons_val_two, Matrix.cons_val_three, Matrix.tail_cons]
    ring
  · exact Physics.orbit_distance (-166486522781.19) (-149495158174.03)
      (Constants.R2 + Constants.H) (-166476539755.17 - -166486522781.19)
      (-220575669506.13 - -149495158174.03) (Real.cos θ) (Real.sin θ) hA.le hr hcs
  · exact hvel.1
  · have h1 : (1.0 : ℝ) * Real.sqrt (Constants.G * Constants.M2 / (Constants.R2 + Constants.H))
        = Real.sqrt (Constants.G * Constants.M2 / (Constants.R2 + Constants.H)) := by
      norm_num
    exact hvel.2.trans h1

end ClaimsCall

/-! ## Shared lemmas: the derivative returned by the force model -/

section Force

variable {α : Type} [LinearOrderedField α]

/-- The components of the derivative that an evaluation returns, as the
source writes them. -/
theorem Physics.calculateForces_components (sqrt : α → α) (s s1 : Physics α)
    (y f : state_type α) (t : α) (h : Physics.calculateForces sqrt s y t = (s1, some f)) :
    f 4 = -(Constants.U * s.dm t * y 4) / (sqrt (y 4 * y 4 + y 5 * y 5) * s.m t) +
        Constants.G * (
          -Constants.M1 * y 0 / sqrt (y 0 * y 0 + y 1 * y 1) ^ 3
          - Constants.M2 * (y 0 - s.r12x) / Physics.distance sqrt (y 0) (y 1) s.r12x s.r12y ^ 3
          - Constants.M3 * (y 0 - y 2) / Physics.distance sqrt (y 0) (y 1) (y 2) (y 3) ^ 3) ∧
    f 5 = -(Constants.U * s.dm t * y 5) / (sqrt (y 4 * y 4 + y 5 * y 5) * s.m t) +
        Constants.G * (
          -Constants.M1 * y 1 / sqrt (y 0 * y 0 + y 1 * y 1) ^ 3
          - Constants.M2 * (y 1 - s.r12y) / Physics.distance sqrt (y 0) (y 1) s.r12x s.r12y ^ 3
          - Constants.M3 * (y 1 - y 3) / Physics.distance sqrt (y 0) (y 1) (y 2) (y 3) ^ 3) ∧
    f 6 = -Constants.G * Constants.M1 * y 2 / sqrt (y 2 * y 2 + y 3 * y 3) ^ 3 -
        Constants.G * Constants.M2 * (y 2 - s.r12x) /
          Physics.distance sqrt (y 2) (y 3) s.r12x s.r12y ^ 3 ∧
    f 7 = -Constants.G * Constants.M1 * y 3 / sqrt (y 2 * y 2 + y 3 * y 3) ^ 3 -
        Constants.G * Constants.M2 * (y 3 - s.r12y) /
          Physics.distance sqrt (y 2) (y 3) s.r12x s.r12y ^ 3 := by
  unfold Physics.calculateForces at h
  simp only [] at h
  split_ifs at h with hg
  · exact Option.noConfusion (congrArg Prod.snd h)
  · have hf := Option.some.inj (congrArg Prod.snd h)
    rw [← hf]
    exact ⟨rfl, rfl, rfl, rfl⟩

end Force

section Checked

variable {α : Type} [LinearOrderedField α]

theorem checked_div_of_ne (a b : α) (h : b ≠ 0) : checked_div a b = some (a / b) := by
  unfold checked_div
  rw [if_neg h]

theorem checked_div_zero (a : α) : checked_div a (0 : α) = none := by
  unfold checked_div
  rw [if_pos rfl]

/-- The checked thrust term is the quotient of the source when its divisor
`v * m(t)` is not zero, and undefined when it is zero. -/
theorem Physics.thrust_term_eq (sqrt : α → α) (s : Physics α) (y : state_type α) (t vc : α) :
    Physics.thrust_term sqrt s y t vc =
      if sqrt (y 4 * y 4 + y 5 * y 5) * s.m t = 0 then none
      else some (-(Constants.U * s.dm t * vc) / (sqrt (y 4 * y 4 + y 5 * y 5) * s.m t)) := rfl

/-- With every divisor nonzero the checked rocket acceleration is defined and
is the pair of expressions of the source. -/
theorem Physics.rocket_acceleration_of_ne (sqrt : α → α) (s : Physics α) (y : state_type α)
    (t : α) (hv : sqrt (y 4 * y 4 + y 5 * y 5) * s.m t ≠ 0)
    (hr : sqrt (y 0 * y 0 + y 1 * y 1) ≠ 0)
    (hr2 : Physics.distance sqrt (y 0) (y 1) s.r12x s.r12y ≠ 0)
    (hr3 : Physics.distance sqrt (y 0) (y 1) (y 2) (y 3) ≠ 0) :
    Physics.rocket_acceleration sqrt s y t = some
      (-(Constants.U * s.dm t * y 4) / (sqrt (y 4 * y 4 + y 5 * y 5) * s.m t) +
        Constants.G * (
          -Constants.M1 * y 0 / sqrt (y 0 * y 0 + y 1 * y 1) ^ 3
          - Constants.M2 * (y 0 - s.r12x) / Physics.distance sqrt (y 0) (y 1) s.r12x s.r12y ^ 3
          - Constants.M3 * (y 0 - y 2) / Physics.distance sqrt (y 0) (y 1) (y 2) (y 3) ^ 3),
       -(Constants.U * s.dm t * y 5) / (sqrt (y 4 * y 4 + y 5 * y 5) * s.m t) +
        Constants.G * (
          -Constants.M1 * y 1 / sqrt (y 0 * y 0 + y 1 * y 1) ^ 3
          - Constants.M2 * (y 1 - s.r12y) / Physics.distance sqrt (y 0) (y 1) s.r12x s.r12y ^ 3
          - Constants.M3 * (y 1 - y 3) / Physics.distance sqrt (y 0) (y 1) (y 2) (y 3) ^ 3)) := by
  unfold Physics.rocket_acceleration
  simp only [Physics.thrust_term_eq, if_neg hv,
    checked_div_of_ne _ _ (pow_ne_zero 3 hr), checked_div_of_ne _ _ (pow_ne_zero 3 hr2),
    checked_div_of_ne _ _ (pow_ne_zero 3 hr3)]
  rfl

/-- With the divisor `v * m(t)` of the thrust term zero, the checked rocket
acceleration is undefined. -/
theorem Physics.rocket_acceleration_of_thrust_zero (sqrt : α → α) (s : Physics α)
    (y : state_type α) (t : α) (hv : sqrt (y 4 * y 4 + y 5 * y 5) * s.m t = 0) :
    Physics.rocket_acceleration sqrt s y t = none := by
  unfold Physics.rocket_acceleration
  simp only [Physics.thrust_term_eq, if_pos hv]
  rfl

/-- Where the checked rocket acceleration is defined, it is what
`calculateForces` returns in `f[4]` and `f[5]`. -/
theorem Physics.rocket_acceleration_agrees (sqrt : α → α) (s s1 : Physics α)
    (y f : state_type α) (t : α) (a : α × α)
    (ha : Physics.rocket_acceleration sqrt s y t = some a)
    (h : Physics.calculateForces sqrt s y t = (s1, some f)) :
    f 4 = a.1 ∧ f 5 = a.2 := by
  have hc := Physics.calculateForces_components sqrt s s1 y f t h
  by_cases hv : sqrt (y 4 * y 4 + y 5 * y 5) * s.m t = 0
  · rw [Physics.rocket_acceleration_of_thrust_zero sqrt s y t hv] at ha
    exact Option.noConfusion ha
  by_cases hr : sqrt (y 0 * y 0 + y 1 * y 1) = 0
  · exfalso
    revert ha
    unfold Physics.rocket_acceleration
    simp only [Physics.thrust_term_eq, if_neg hv, hr]
    simp [checked_div]
  by_cases hr2 : Physics.distance sqrt (y 0) (y 1) s.r12x s.r12y = 0
  · exfalso
    revert ha
    unfold Physics.rocket_acceleration
    simp only [Physics.thrust_term_eq, if_neg hv, hr2,
      checked_div_of_ne _ _ (pow_ne_zero 3 hr)]
    simp [checked_div]
  by_cases hr3 : Physics.distance sqrt (y 0) (y 1) (y 2) (y 3) = 0
  · exfalso
    revert ha
    unfold Physics.rocket_acceleration
    simp only [Physics.thrust_term_eq, if_neg hv, hr3,
      checked_div_of_ne _ _ (pow_ne_zero 3 hr), checked_div_of_ne _ _ (pow_ne_zero 3 hr2)]
    simp [checked_div]
  rw [Physics.rocket_acceleration_of_ne sqrt s y t hv hr hr2 hr3] at ha
  rw [← Option.some.inj ha]
  exact ⟨hc.1, hc.2.1⟩

/-- The planet position after the reset does not depend on the statics before
the call nor on the fuel. -/
theorem Physics.reset_planet (s1 s2 : Physics α) (f1 f2 : α) :
    (Physics.reset s1 f1).r12x = (Physics.reset s2 f2).r12x ∧
    (Physics.reset s1 f1).r12y = (Physics.reset s2 f2).r12y := by
  unfold Physics.reset
  exact ⟨rfl, rfl⟩

end Checked

section MassBound

variable {α : Type} [LinearOrderedField α]

/-- For a fuel mass `≥ 0` the mass never falls below the payload mass. -/
theorem Physics.M0_le_m (s : Physics α) (t : α) (hfuel : 0 ≤ s.mt) : Constants.M0 ≤ s.m t := by
  rcases lt_or_le t Constants.T with h | h
  · rw [Physics.m_of_lt_closed s t h, Constants.M0_eq]
    rw [Constants.T_eq] at h
    have hmul : s.mt * t ≤ s.mt * 1200 := mul_le_mul_of_nonneg_left h.le hfuel
    have hdiv : s.mt * t / 1200 ≤ s.mt * 1200 / 1200 :=
      div_le_div_of_nonneg_right hmul (by norm_num)
    have e : s.mt * 1200 / 1200 = s.mt := by field_simp
    rw [e] at hdiv
    have e2 : (10 + s.mt) * 20 / 19 = 200 / 19 + s.mt * (20 / 19) := by ring
    rw [e2]
    have h3 : s.mt ≤ s.mt * (20 / 19) := by
      have := mul_le_mul_of_nonneg_left (show (1 : α) ≤ 20 / 19 by norm_num) hfuel
      linarith
    have h4 : (10 : α) ≤ 200 / 19 := by norm_num
    linarith
  · rw [Physics.m_of_ge s t h]

theorem Constants.M0_pos : (0 : α) < Constants.M0 := by
  rw [Constants.M0_eq]
  norm_num

/-- After burn completion the mass rate is zero. -/
theorem Physics.dm_of_gt (s : Physics α) (t : α) (h : t > Constants.T) : s.dm t = 0 := by
  unfold Physics.dm
  rw [if_pos h]
  norm_num

end MassBound

/-! ## Claims on the force model -/

section ClaimsForce

variable {α : Type} [LinearOrderedField α]

/-- C14 as stated fails: the force model has no special case for a rocket at
rest. Over the reals, at the sample state with rocket velocity `(0, 0)`, time
`t = 0 ≤ T` and fuel 100: the speed is 0, the evaluation does not throw, and
the divisor `speed * m(t)` of the thrust term is 0, so the thrust term and
with it the rocket acceleration are a division by zero, not a defined
value. -/
theorem C14_counterexample :
    Real.sqrt ((at_rest : state_type ℝ) 4 * at_rest 4 + at_rest 5 * at_rest 5) = 0 ∧
    (0 : ℝ) ≤ Constants.T ∧
    (0 : ℝ) < (Physics.reset Physics.start 100 : Physics ℝ).mt ∧
    (Physics.calculateForces Real.sqrt (Physics.reset Physics.start 100) at_rest 0).2.isSome
      = true ∧
    Real.sqrt ((at_rest : state_type ℝ) 4 * at_rest 4 + at_rest 5 * at_rest 5) *
      (Physics.reset Physics.start 100 : Physics ℝ).m 0 = 0 ∧
    Physics.thrust_term Real.sqrt (Physics.reset Physics.start 100) at_rest 0
      ((at_rest : state_type ℝ) 4) = none ∧
    Physics.rocket_acceleration Real.sqrt (Physics.reset Physics.start 100) at_rest 0 = none := by
  have hs : Real.sqrt ((at_rest : state_type ℝ) 4 * at_rest 4 + at_rest 5 * at_rest 5) = 0 := by
    simp [at_rest, vec8_four, vec8_five]
  have hd : Real.sqrt ((at_rest : state_type ℝ) 4 * at_rest 4 + at_rest 5 * at_rest 5) *
      (Physics.reset Physics.start 100 : Physics ℝ).m 0 = 0 := by
    rw [hs, zero_mul]
  refine ⟨hs, ?_, ?_, ?_, hd, ?_, ?_⟩
  · rw [Constants.T_eq]
    norm_num
  · show (0 : ℝ) < 100
    norm_num
  · exact (Physics.calculateForces_pass_fst Real.sqrt (Physics.reset Physics.start 100)
      at_rest 0 (fun h => h.1.2 rfl)).2
  · rw [Physics.thrust_term_eq, if_pos hd]
  · exact Physics.rocket_acceleration_of_thrust_zero Real.sqrt _ at_rest 0 hd

/-- C14 amended. Over the reals, for every state, time and fuel: if the rocket
speed `sqrt (vx² + vy²)` is exactly zero, then `vx = vy = 0`, the divisor
`speed * m(t)` of the thrust term is zero and so is its numerator
`-(U * dm(t) * v_component)`; the force model has no special case there, its
thrust term is the division of zero by zero and the rocket acceleration is
not defined. The thrust term is the defined quotient of the source whenever
`speed * m(t)` is not zero. -/
theorem C14_zero_speed (s : Physics ℝ) (y : state_type ℝ) (t : ℝ) :
    (Real.sqrt (y 4 * y 4 + y 5 * y 5) = 0 →
      (y 4 = 0 ∧ y 5 = 0) ∧
      Real.sqrt (y 4 * y 4 + y 5 * y 5) * s.m t = 0 ∧
      -(Constants.U * s.dm t * y 4) = 0 ∧
      -(Constants.U * s.dm t * y 5) = 0 ∧
      Physics.thrust_term Real.sqrt s y t (y 4) = none ∧
      Physics.thrust_term Real.sqrt s y t (y 5) = none ∧
      Physics.rocket_acceleration Real.sqrt s y t = none) ∧
    (Real.sqrt (y 4 * y 4 + y 5 * y 5) * s.m t ≠ 0 →
      Physics.thrust_term Real.sqrt s y t (y 4) =
        some (-(Constants.U * s.dm t * y 4) / (Real.sqrt (y 4 * y 4 + y 5 * y 5) * s.m t)) ∧
      Physics.thrust_term Real.sqrt s y t (y 5) =
        some (-(Constants.U * s.dm t * y 5) / (Real.sqrt (y 4 * y 4 + y 5 * y 5) * s.m t))) := by
  constructor
  · intro hs
    have hle : y 4 * y 4 + y 5 * y 5 ≤ 0 := Real.sqrt_eq_zero'.mp hs
    have h4 : y 4 * y 4 = 0 := by nlinarith [mul_self_nonneg (y 4), mul_self_nonneg (y 5)]
    have h5 : y 5 * y 5 = 0 := by nlinarith [mul_self_nonneg (y 4), mul_self_nonneg (y 5)]
    have hx : y 4 = 0 := mul_self_eq_zero.mp h4
    have hy : y 5 = 0 := mul_self_eq_zero.mp h5
    have hd : Real.sqrt (y 4 * y 4 + y 5 * y 5) * s.m t = 0 := by rw [hs, zero_mul]
    refine ⟨⟨hx, hy⟩, hd, ?_, ?_, ?_, ?_,
      Physics.rocket_acceleration_of_thrust_zero Real.sqrt s y t hd⟩
    · rw [hx]; ring
    · rw [hy]; ring
    · rw [Physics.thrust_term_eq, if_pos hd]
    · rw [Physics.thrust_term_eq, if_pos hd]
  · intro hd
    constructor
    · rw [Physics.thrust_term_eq, if_neg hd]
    · rw [Physics.thrust_term_eq, if_neg hd]

/-- C14 amended, at the sample state at rest, `t = 0`, fuel 100. -/
theorem C14_zero_speed_witness :
    Physics.rocket_acceleration Real.sqrt (Physics.reset Physics.start 100)
      (at_rest : state_type ℝ) 0 = none :=
  ((C14_zero_speed (Physics.reset Physics.start 100) at_rest 0).1
    (by simp [at_rest, vec8_four, vec8_five])).2.2.2.2.2.2

/-- C15. For every time `t > T`, every statics (so every fuel mass) and every
state with nonzero rocket speed and nonzero distances from the rocket to the
star, the planet and the satellite: the thrust term of `calculateForces` is
zero in both components and the rocket acceleration is defined. An
evaluation of `calculateForces` there that does not signal a crossing
returns a derivative `f` whose `(f[4], f[5])` is the gravitational sum
`-G * (M1 * r / |r|³ + M2 * (r - r_planet) / |r - r_planet|³ +
M3 * (r - r_sat) / |r - r_sat|³)` (one that signals a crossing throws and
returns no derivative); any two evaluations that return, from statics with
the same planet position and any fuel masses, give the same `f[4]` and
`f[5]`. -/
theorem C15_ballistic_acceleration (sqrt : α → α) (s : Physics α) (y : state_type α) (t : α)
    (ht : t > Constants.T)
    (hv : sqrt (y 4 * y 4 + y 5 * y 5) ≠ 0)
    (hr : sqrt (y 0 * y 0 + y 1 * y 1) ≠ 0)
    (hr2 : Physics.distance sqrt (y 0) (y 1) s.r12x s.r12y ≠ 0)
    (hr3 : Physics.distance sqrt (y 0) (y 1) (y 2) (y 3) ≠ 0) :
    Physics.thrust_term sqrt s y t (y 4) = some 0 ∧
    Physics.thrust_term sqrt s y t (y 5) = some 0 ∧
    Physics.rocket_acceleration sqrt s y t = some
      (-Constants.G * (
          Constants.M1 * y 0 / sqrt (y 0 * y 0 + y 1 * y 1) ^ 3
          + Constants.M2 * (y 0 - s.r12x) / Physics.distance sqrt (y 0) (y 1) s.r12x s.r12y ^ 3
          + Constants.M3 * (y 0 - y 2) / Physics.distance sqrt (y 0) (y 1) (y 2) (y 3) ^ 3),
       -Constants.G * (
          Constants.M1 * y 1 / sqrt (y 0 * y 0 + y 1 * y 1) ^ 3
          + Constants.M2 * (y 1 - s.r12y) / Physics.distance sqrt (y 0) (y 1) s.r12x s.r12y ^ 3
          + Constants.M3 * (y 1 - y 3) / Physics.distance sqrt (y 0) (y 1) (y 2) (y 3) ^ 3)) ∧
    (¬ ((s.trajectory_crossed = false ∧ s.prev_distance ≠ 0) ∧
        Physics.distance sqrt (y 0) (y 1) (y 2) (y 3) < Constants.R3 * 10) →
      ∃ f : state_type α,
        Physics.calculateForces sqrt s y t =
          ({ s with
              min_distance :=
                min s.min_distance (Physics.distance sqrt (y 0) (y 1) (y 2) (y 3))
              prev_distance := Physics.distance sqrt (y 0) (y 1) (y 2) (y 3) }, some f) ∧
        f 4 = -Constants.G * (
          Constants.M1 * y 0 / sqrt (y 0 * y 0 + y 1 * y 1) ^ 3
          + Constants.M2 * (y 0 - s.r12x) / Physics.distance sqrt (y 0) (y 1) s.r12x s.r12y ^ 3
          + Constants.M3 * (y 0 - y 2) / Physics.distance sqrt (y 0) (y 1) (y 2) (y 3) ^ 3) ∧
        f 5 = -Constants.G * (
          Constants.M1 * y 1 / sqrt (y 0 * y 0 + y 1 * y 1) ^ 3
          + Constants.M2 * (y 1 - s.r12y) / Physics.distance sqrt (y 0) (y 1) s.r12x s.r12y ^ 3
          + Constants.M3 * (y 1 - y 3) / Physics.distance sqrt (y 0) (y 1) (y 2) (y 3) ^ 3)) ∧
    (((s.trajectory_crossed = false ∧ s.prev_distance ≠ 0) ∧
        Physics.distance sqrt (y 0) (y 1) (y 2) (y 3) < Constants.R3 * 10) →
      (Physics.calculateForces sqrt s y t).2 = none) ∧
    (∀ (s2 s1 s3 : Physics α) (f f2 : state_type α), s2.r12x = s.r12x → s2.r12y = s.r12y →
      Physics.calculateForces sqrt s y t = (s1, some f) →
      Physics.calculateForces sqrt s2 y t = (s3, some f2) →
      f2 4 = f 4 ∧ f2 5 = f 5) ∧
    (∀ s2 : Physics α, s2.r12x = s.r12x → s2.r12y = s.r12y →
      Physics.rocket_acceleration sqrt s2 y t = Physics.rocket_acceleration sqrt s y t) := by
  have hm : ∀ a : Physics α, a.m t = Constants.M0 := fun a => Physics.m_of_ge a t ht.le
  have hdm : ∀ a : Physics α, a.dm t = 0 := fun a => Physics.dm_of_gt a t ht
  have hd : ∀ a : Physics α, sqrt (y 4 * y 4 + y 5 * y 5) * a.m t ≠ 0 := by
    intro a
    rw [hm a]
    exact mul_ne_zero hv (ne_of_gt Constants.M0_pos)
  have hacc : ∀ a : Physics α, a.r12x = s.r12x → a.r12y = s.r12y →
      Physics.rocket_acceleration sqrt a y t = some
      (-Constants.G * (
          Constants.M1 * y 0 / sqrt (y 0 * y 0 + y 1 * y 1) ^ 3
          + Constants.M2 * (y 0 - s.r12x) / Physics.distance sqrt (y 0) (y 1) s.r12x s.r12y ^ 3
          + Constants.M3 * (y 0 - y 2) / Physics.distance sqrt (y 0) (y 1) (y 2) (y 3) ^ 3),
       -Constants.G * (
          Constants.M1 * y 1 / sqrt (y 0 * y 0 + y 1 * y 1) ^ 3
          + Constants.M2 * (y 1 - s.r12y) / Physics.distance sqrt (y 0) (y 1) s.r12x s.r12y ^ 3
          + Constants.M3 * (y 1 - y 3) / Physics.distance sqrt (y 0) (y 1) (y 2) (y 3) ^ 3)) := by
    intro a hx hy
    rw [Physics.rocket_acceleration_of_ne sqrt a y t (hd a) hr (by rw [hx, hy]; exact hr2) hr3,
      hdm a, hx, hy]
    congr 1
    refine Prod.ext ?_ ?_
    · show _ = _
      ring
    · show _ = _
      ring
  refine ⟨?_, ?_, hacc s rfl rfl, ?_, ?_, ?_, ?_⟩
  · rw [Physics.thrust_term_eq, if_neg (hd s), hdm s]
    congr 1
    ring
  · rw [Physics.thrust_term_eq, if_neg (hd s), hdm s]
    congr 1
    ring
  · intro hg
    obtain ⟨f, hf⟩ := Physics.calculateForces_pass sqrt s y t hg
    have h := Physics.rocket_acceleration_agrees sqrt s _ y f t _ (hacc s rfl rfl) hf
    exact ⟨f, hf, h.1, h.2⟩
  · intro hg
    rw [Physics.calculateForces_fire sqrt s y t hg.1.1 hg.1.2 hg.2]
  · intro s2 s1 s3 f f2 hx hy hf hf2
    have h := Physics.rocket_acceleration_agrees sqrt s s1 y f t _ (hacc s rfl rfl) hf
    have h2 := Physics.rocket_acceleration_agrees sqrt s2 s3 y f2 t _ (hacc s2 hx hy) hf2
    exact ⟨h2.1.trans h.1.symm, h2.2.trans h.2.symm⟩
  · intro s2 hx hy
    rw [hacc s2 hx hy, hacc s rfl rfl]

/-- C15 over the reals at `t = 1300 > T`, at the sample state of separation 5
(rocket at `(0, 1)` with velocity `(1, 0)`): the first evaluation of a call
with fuel 100 and the first evaluation of a call with fuel 50 both return a
derivative, with the same `f[4]` and `f[5]`, and the thrust term is 0. -/
theorem C15_ballistic_acceleration_witness :
    Physics.thrust_term Real.sqrt (Physics.reset Physics.start 100) (at_separation 5) 1300
        ((at_separation 5 : state_type ℝ) 4) = some 0 ∧
    ∃ (s1 s3 : Physics ℝ) (f f2 : state_type ℝ),
      Physics.calculateForces Real.sqrt (Physics.reset Physics.start 100)
        (at_separation 5) 1300 = (s1, some f) ∧
      Physics.calculateForces Real.sqrt (Physics.reset Physics.start 50)
        (at_separation 5) 1300 = (s3, some f2) ∧
      f2 4 = f 4 ∧ f2 5 = f 5 ∧
      f 4 = -Constants.G * (
          Constants.M1 * (at_separation 5 : state_type ℝ) 0 /
            Real.sqrt ((at_separation 5 : state_type ℝ) 0 * (at_separation 5 : state_type ℝ) 0
              + (at_separation 5 : state_type ℝ) 1 * (at_separation 5 : state_type ℝ) 1) ^ 3
          + Constants.M2 * ((at_separation 5 : state_type ℝ) 0
              - (Physics.reset Physics.start 100 : Physics ℝ).r12x) /
            Physics.distance Real.sqrt ((at_separation 5 : state_type ℝ) 0)
              ((at_separation 5 : state_type ℝ) 1)
              (Physics.reset Physics.start 100 : Physics ℝ).r12x
              (Physics.reset Physics.start 100 : Physics ℝ).r12y ^ 3
          + Constants.M3 * ((at_separation 5 : state_type ℝ) 0
              - (at_separation 5 : state_type ℝ) 2) /
            Physics.distance Real.sqrt ((at_separation 5 : state_type ℝ) 0)
              ((at_separation 5 : state_type ℝ) 1) ((at_separation 5 : state_type ℝ) 2)
              ((at_separation 5 : state_type ℝ) 3) ^ 3) := by
  have h := C15_ballistic_acceleration Real.sqrt (Physics.reset Physics.start 100)
    (at_separation 5) 1300
    (by rw [Constants.T_eq]; norm_num)
    (by simp [at_separation, vec8_four, vec8_five])
    (by simp [at_separation])
    (by
      unfold Physics.distance
      apply Real.sqrt_ne_zero'.mpr
      simp only [at_separation, Physics.reset, Matrix.cons_val_zero, Matrix.cons_val_one,
        Matrix.head_cons]
      norm_num)
    (by rw [Physics.distance_at_separation 5 (by norm_num)]; norm_num)
  obtain ⟨f, hf, h4, _⟩ := h.2.2.2.1 (fun hg => hg.1.2 rfl)
  obtain ⟨f2, hf2⟩ := Physics.calculateForces_pass Real.sqrt
    (Physics.reset Physics.start 50) (at_separation 5) 1300 (fun hg => hg.1.2 rfl)
  have hind := h.2.2.2.2.2.1 (Physics.reset Physics.start 50) _ _ f f2
    (Physics.reset_planet _ _ _ _).1 (Physics.reset_planet _ _ _ _).2 hf hf2
  exact ⟨h.1, _, _, f, f2, hf, hf2, hind.1, hind.2, h4⟩

/-- C16. For any two evaluations of `calculateForces` that return (neither
signals a crossing), whose states have the same satellite position
`(y[2], y[3])` and whose statics have the same planet position: the satellite
accelerations `f[6]`, `f[7]` are equal, whatever the rocket positions, the
velocities, the times and the fuel masses are, and they are
`-G * M1 * r13 / |r13|³ - G * M2 * (r13 - r12) / |r13 - r12|³`
componentwise. -/
theorem C16_satellite_acceleration (sqrt : α → α) (sa sb sa1 sb1 : Physics α)
    (ya yb fa fb : state_type α) (ta tb : α)
    (ha : Physics.calculateForces sqrt sa ya ta = (sa1, some fa))
    (hb : Physics.calculateForces sqrt sb yb tb = (sb1, some fb))
    (hx : ya 2 = yb 2) (hy : ya 3 = yb 3)
    (hpx : sa.r12x = sb.r12x) (hpy : sa.r12y = sb.r12y) :
    fa 6 = fb 6 ∧ fa 7 = fb 7 ∧
    fa 6 = -Constants.G * Constants.M1 * ya 2 / sqrt (ya 2 * ya 2 + ya 3 * ya 3) ^ 3 -
      Constants.G * Constants.M2 * (ya 2 - sa.r12x) /
        sqrt ((ya 2 - sa.r12x) * (ya 2 - sa.r12x) + (ya 3 - sa.r12y) * (ya 3 - sa.r12y)) ^ 3 ∧
    fa 7 = -Constants.G * Constants.M1 * ya 3 / sqrt (ya 2 * ya 2 + ya 3 * ya 3) ^ 3 -
      Constants.G * Constants.M2 * (ya 3 - sa.r12y) /
        sqrt ((ya 2 - sa.r12x) * (ya 2 - sa.r12x) + (ya 3 - sa.r12y) * (ya 3 - sa.r12y)) ^ 3 := by
  have ca := Physics.calculateForces_components sqrt sa sa1 ya fa ta ha
  have cb := Physics.calculateForces_components sqrt sb sb1 yb fb tb hb
  have hdist : Physics.distance sqrt (ya 2) (ya 3) sa.r12x sa.r12y =
      sqrt ((ya 2 - sa.r12x) * (ya 2 - sa.r12x) + (ya 3 - sa.r12y) * (ya 3 - sa.r12y)) := by
    unfold Physics.distance
    exact congrArg sqrt (by ring)
  refine ⟨?_, ?_, ?_, ?_⟩
  · rw [ca.2.2.1, cb.2.2.1, hx, hy, hpx, hpy]
  · rw [ca.2.2.2, cb.2.2.2, hx, hy, hpx, hpy]
  · rw [ca.2.2.1, hdist]
  · rw [ca.2.2.2, hdist]

/-- C16 over the reals: the first evaluation of a call with fuel 100 at the
sample state of separation 5 and time 0, and the first evaluation of a call
with fuel 50 at the state `far_rocket` (other rocket position and velocities,
same satellite position) and time 2000, return the same `f[6]` and `f[7]`. -/
theorem C16_satellite_acceleration_witness :
    ∃ (sa1 sb1 : Physics ℝ) (fa fb : state_type ℝ),
      Physics.calculateForces Real.sqrt (Physics.reset Physics.start 100)
        (at_separation 5) 0 = (sa1, some fa) ∧
      Physics.calculateForces Real.sqrt (Physics.reset Physics.start 50)
        far_rocket 2000 = (sb1, some fb) ∧
      fa 6 = fb 6 ∧ fa 7 = fb 7 := by
  obtain ⟨fa, hfa⟩ := Physics.calculateForces_pass Real.sqrt
    (Physics.reset Physics.start 100) (at_separation 5) 0 (fun h => h.1.2 rfl)
  obtain ⟨fb, hfb⟩ := Physics.calculateForces_pass Real.sqrt
    (Physics.reset Physics.start 50) far_rocket 2000 (fun h => h.1.2 rfl)
  have h := C16_satellite_acceleration Real.sqrt (Physics.reset Physics.start 100)
    (Physics.reset Physics.start 50) _ _ (at_separation 5) far_rocket fa fb 0 2000
    hfa hfb (by simp [at_separation, far_rocket]) (by simp [at_separation, far_rocket])
    (Physics.reset_planet _ _ _ _).1 (Physics.reset_planet _ _ _ _).2
  exact ⟨_, _, fa, fb, hfa, hfb, h.1, h.2.1⟩

/-- C18. For every fuel mass `≥ 0` and every time `t` (before, at or after
burn completion), `m t ≥ M0 > 0`; so `m t` is not zero, and for every state
with nonzero rocket speed the divisor `speed * m(t)` of the thrust term of
`calculateForces` is not zero and the thrust term is a defined quotient. -/
theorem C18_mass_positive (s : Physics α) (t : α) (hfuel : 0 ≤ s.mt) :
    Constants.M0 ≤ s.m t ∧ (0 : α) < Constants.M0 ∧ s.m t ≠ 0 ∧
    ∀ (sqrt : α → α) (y : state_type α), sqrt (y 4 * y 4 + y 5 * y 5) ≠ 0 →
      sqrt (y 4 * y 4 + y 5 * y 5) * s.m t ≠ 0 ∧
      Physics.thrust_term sqrt s y t (y 4) =
        some (-(Constants.U * s.dm t * y 4) / (sqrt (y 4 * y 4 + y 5 * y 5) * s.m t)) ∧
      Physics.thrust_term sqrt s y t (y 5) =
        some (-(Constants.U * s.dm t * y 5) / (sqrt (y 4 * y 4 + y 5 * y 5) * s.m t)) := by
  have hle := Physics.M0_le_m s t hfuel
  have hpos : (0 : α) < Constants.M0 := Constants.M0_pos
  have hne : s.m t ≠ 0 := ne_of_gt (lt_of_lt_of_le hpos hle)
  refine ⟨hle, hpos, hne, fun sqrt y hv => ?_⟩
  have hd : sqrt (y 4 * y 4 + y 5 * y 5) * s.m t ≠ 0 := mul_ne_zero hv hne
  refine ⟨hd, ?_, ?_⟩
  · rw [Physics.thrust_term_eq, if_neg hd]
  · rw [Physics.thrust_term_eq, if_neg hd]

/-- C18 at fuel 100 and `t = 600`, over the rationals: `m 600 = 1250 / 19`. -/
theorem C18_mass_positive_witness :
    (0 : ℚ) ≤ (Physics.reset Physics.start 100 : Physics ℚ).mt ∧
    (Constants.M0 : ℚ) ≤ (Physics.reset Physics.start 100 : Physics ℚ).m 600 ∧
    (Physics.reset Physics.start 100 : Physics ℚ).m 600 ≠ 0 :=
  ⟨by show (0 : ℚ) ≤ 100; norm_num,
    (C18_mass_positive (Physics.reset Physics.start 100 : Physics ℚ) 600
      (by show (0 : ℚ) ≤ 100; norm_num)).1,
    (C18_mass_positive (Physics.reset Physics.start 100 : Physics ℚ) 600
      (by show (0 : ℚ) ≤ 100; norm_num)).2.2.1⟩

end ClaimsForce

/-! ## Shared lemmas: the running minimum -/

section RunningMin

variable {α : Type} [LinearOrderedField α]

theorem foldl_min_le_init (l : List α) : ∀ a : α, l.foldl min a ≤ a := by
  induction l with
  | nil => intro a; exact le_rfl
  | cons b l ih =>
    intro a
    exact le_trans (ih (min a b)) (min_le_left a b)

theorem foldl_min_le_of_mem (l : List α) : ∀ a : α, ∀ d ∈ l, l.foldl min a ≤ d := by
  induction l with
  | nil => intro a d hd; cases hd
  | cons b l ih =>
    intro a d hd
    rcases List.mem_cons.mp hd with h | h
    · rw [h]
      exact le_trans (foldl_min_le_init l (min a b)) (min_le_right a b)
    · exact ih (min a b) d h

theorem foldl_min_mem (l : List α) : ∀ a : α, l.foldl min a ∈ a :: l := by
  induction l with
  | nil => intro a; exact List.mem_cons_self a []
  | cons b l ih =>
    intro a
    have h := ih (min a b)
    rcases List.mem_cons.mp h with h1 | h1
    · rcases min_choice a b with hc | hc
      · rw [List.foldl_cons, h1, hc]
        exact List.mem_cons_self a _
      · rw [List.foldl_cons, h1, hc]
        exact List.mem_cons_of_mem a (List.mem_cons_self b l)
    · exact List.mem_cons_of_mem a (List.mem_cons_of_mem b h1)

theorem Physics.separations_visit_nil (sqrt : α → α) (y0 : state_type α) (t te h : α)
    (s : Physics α) : Physics.separations sqrt (visit [] y0 t te h) s = [] := rfl

/-- The separations of a run of `visit`, at a state where the detector does
not fire. -/
theorem Physics.separations_visit_pass (sqrt : α → α) (y : state_type α)
    (ys : List (state_type α)) (y0 : state_type α) (t te h : α) (s : Physics α)
    (hg : ¬ ((s.trajectory_crossed = false ∧ s.prev_distance ≠ 0) ∧
      Physics.distance sqrt (y 0) (y 1) (y 2) (y 3) < Constants.R3 * 10)) :
    Physics.separations sqrt (visit (y :: ys) y0 t te h) s =
      Physics.distance sqrt (y 0) (y 1) (y 2) (y 3) ::
        Physics.separations sqrt (visit ys y0 t te h)
          { s with
            min_distance := min s.min_distance (Physics.distance sqrt (y 0) (y 1) (y 2) (y 3))
            prev_distance := Physics.distance sqrt (y 0) (y 1) (y 2) (y 3) } := by
  obtain ⟨f, hf⟩ := Physics.calculateForces_pass sqrt s y t hg
  rw [visit, Physics.separations, hf]

/-- A run that completes leaves `min_distance ≤ prev_distance`, provided it
made at least one evaluation or the inequality held before. -/
theorem Physics.run_min_le_prev (sqrt : α → α) (st : Stepper α) :
    ∀ s : Physics α, (Physics.run sqrt st s).2 = false →
      (Physics.separations sqrt st s ≠ [] ∨ s.min_distance ≤ s.prev_distance) →
      (Physics.run sqrt st s).1.min_distance ≤ (Physics.run sqrt st s).1.prev_distance := by
  induction st with
  | done =>
    intro s _ h
    rcases h with h | h
    · exact absurd rfl h
    · exact h
  | sys y t k ih =>
    intro s hr _
    by_cases hg : (s.trajectory_crossed = false ∧ s.prev_distance ≠ 0) ∧
        Physics.distance sqrt (y 0) (y 1) (y 2) (y 3) < Constants.R3 * 10
    · rw [Physics.run_sys_none sqrt s _ y t k
        (Physics.calculateForces_fire sqrt s y t hg.1.1 hg.1.2 hg.2)] at hr
      exact Bool.noConfusion hr
    · obtain ⟨f, hf⟩ := Physics.calculateForces_pass sqrt s y t hg
      rw [Physics.run_sys_some sqrt s _ y f t k hf] at hr ⊢
      exact ih f _ hr (Or.inr (min_le_right _ _))

/-- The call that visits the sample states of separations `d` and `e`, with
`0 ≤ d ≤ 1000000` and `111000 ≤ e`: no crossing, the separations are
`[d, e]` and the cost is `min d e + 1e6`. -/
theorem Physics.simulate_pass_pass (d e : ℝ) (hd : 0 ≤ d) (hd1 : d ≤ 1000000)
    (he : 111000 ≤ e) (s : Physics ℝ) (angle fuel : ℝ) :
    Physics.simulate_trajectory Real.sqrt Real.cos Real.sin
        (visit [at_separation d, at_separation e]) s angle fuel =
      ({ Physics.reset s fuel with min_distance := min d e, prev_distance := e },
        min d e + 1e6) ∧
    Physics.separations Real.sqrt
        (visit [at_separation d, at_separation e]
          (Physics.initial_state Real.sqrt Real.cos Real.sin angle) 0.0 (60.0 * 60 * 24) 0.1)
        (Physics.reset s fuel) = [d, e] := by
  have he0 : 0 ≤ e := le_trans (by norm_num) he
  have hm : min (Physics.reset s fuel).min_distance d = d :=
    min_eq_right (le_trans hd1 DBL_MAX_large)
  have hg2 : ∀ a : Physics ℝ, ¬ ((a.trajectory_crossed = false ∧ a.prev_distance ≠ 0) ∧
      Physics.distance Real.sqrt (at_separation e 0) (at_separation e 1)
        (at_separation e 2) (at_separation e 3) < Constants.R3 * 10) := by
    intro a h
    rw [Physics.distance_at_separation e he0, Constants.R3_mul_ten] at h
    exact absurd h.2 (not_lt.mpr he)
  constructor
  · rw [Physics.simulate_trajectory_eq,
      Physics.run_visit_pass _ _ _ _ _ _ _ _ (fun h => h.1.2 rfl),
      Physics.run_visit_pass _ _ _ _ _ _ _ _ (hg2 _), Physics.run_visit_nil,
      Physics.distance_at_separation d hd, Physics.distance_at_separation e he0]
    simp only [hm]
    rfl
  · rw [Physics.separations_visit_pass _ _ _ _ _ _ _ _ (fun h => h.1.2 rfl),
      Physics.separations_visit_pass _ _ _ _ _ _ _ _ (hg2 _), Physics.separations_visit_nil,
      Physics.distance_at_separation d hd, Physics.distance_at_separation e he0]

end RunningMin

/-! ## Claims on the cost of a completed call -/

section ClaimsCost

variable {α : Type} [LinearOrderedField α]

/-- C17. Take a call of `simulate_trajectory` that reaches the horizon without
a crossing (flag clear after the call) and whose evaluations of
`calculateForces` computed the non-empty sequence of separations
`d0 :: rest`, each of them a finite double (at most `DBL_MAX`). Then the call
returns `m + 1e6`, where `m` is the minimum of the sequence: `m` is one of
the separations and is at most each of them. After every evaluation that
returns, in particular after each evaluation of such a call,
`min_distance ≤ prev_distance`; so it holds when the call returns. -/
theorem C17_completed_cost (sqrt cos sin : α → α)
    (integ : state_type α → α → α → α → Stepper α) (s : Physics α) (angle fuel : α)
    (d0 : α) (rest : List α)
    (hnc : (Physics.simulate_trajectory sqrt cos sin integ s angle fuel).1.trajectory_crossed
      = false)
    (hseq : Physics.separations sqrt
        (integ (Physics.initial_state sqrt cos sin angle) 0.0 (60.0 * 60 * 24) 0.1)
        (Physics.reset s fuel) = d0 :: rest)
    (hrep : ∀ d ∈ d0 :: rest, d ≤ DBL_MAX) :
    (Physics.simulate_trajectory sqrt cos sin integ s angle fuel).2 =
      rest.foldl min d0 + 1e6 ∧
    rest.foldl min d0 ∈ d0 :: rest ∧
    (∀ d ∈ d0 :: rest, rest.foldl min d0 ≤ d) ∧
    (∀ (sa sb : Physics α) (y f : state_type α) (t : α),
      Physics.calculateForces sqrt sa y t = (sb, some f) →
        sb.min_distance ≤ sb.prev_distance) ∧
    (Physics.simulate_trajectory sqrt cos sin integ s angle fuel).1.min_distance ≤
      (Physics.simulate_trajectory sqrt cos sin integ s angle fuel).1.prev_distance := by
  have hmin := Physics.simulate_trajectory_min_distance sqrt cos sin integ s angle fuel
  rw [hseq, List.foldl_cons, min_eq_right (hrep d0 (List.mem_cons_self d0 rest))] at hmin
  have hflag := Physics.run_flag sqrt
    (integ (Physics.initial_state sqrt cos sin angle) 0.0 (60.0 * 60 * 24) 0.1)
    (Physics.reset s fuel) rfl
  have hcost : (Physics.simulate_trajectory sqrt cos sin integ s angle fuel).2 =
      (Physics.simulate_trajectory sqrt cos sin integ s angle fuel).1.min_distance + 1e6 := by
    rw [Physics.simulate_trajectory_eq] at hnc ⊢
    revert hnc hflag
    generalize Physics.run sqrt _ (Physics.reset s fuel) = r
    rcases r with ⟨s1, b⟩
    cases b
    · intro _ _
      rfl
    · intro hnc hflag
      exact Bool.noConfusion
        ((show s1.trajectory_crossed = false from hnc).symm.trans
          (show s1.trajectory_crossed = true from hflag))
  have hlast : (Physics.simulate_trajectory sqrt cos sin integ s angle fuel).1.min_distance ≤
      (Physics.simulate_trajectory sqrt cos sin integ s angle fuel).1.prev_distance := by
    have hinv := Physics.run_min_le_prev sqrt
      (integ (Physics.initial_state sqrt cos sin angle) 0.0 (60.0 * 60 * 24) 0.1)
      (Physics.reset s fuel)
    rw [hseq] at hinv
    rw [Physics.simulate_trajectory_eq] at hnc ⊢
    revert hnc hflag hinv
    generalize Physics.run sqrt _ (Physics.reset s fuel) = r
    rcases r with ⟨s1, b⟩
    cases b
    · intro _ _ hinv
      exact hinv rfl (Or.inl (List.cons_ne_nil d0 rest))
    · intro hnc hflag _
      exact Bool.noConfusion
        ((show s1.trajectory_crossed = false from hnc).symm.trans
          (show s1.trajectory_crossed = true from hflag))
  refine ⟨by rw [hcost, hmin], foldl_min_mem rest d0, ?_, ?_, hlast⟩
  · intro d hd
    rcases List.mem_cons.mp hd with h | h
    · rw [h]
      exact foldl_min_le_init rest d0
    · exact foldl_min_le_of_mem rest d0 d h
  · intro sa sb y f t hcf
    by_cases hg : (sa.trajectory_crossed = false ∧ sa.prev_distance ≠ 0) ∧
        Physics.distance sqrt (y 0) (y 1) (y 2) (y 3) < Constants.R3 * 10
    · rw [Physics.calculateForces_fire sqrt sa y t hg.1.1 hg.1.2 hg.2] at hcf
      exact Option.noConfusion (congrArg Prod.snd hcf)
    · have hp := (Physics.calculateForces_pass_fst sqrt sa y t hg).1
      rw [hcf] at hp
      have hp1 : sb = { sa with
          min_distance := min sa.min_distance (Physics.distance sqrt (y 0) (y 1) (y 2) (y 3))
          prev_distance := Physics.distance sqrt (y 0) (y 1) (y 2) (y 3) } := hp
      rw [hp1]
      exact min_le_right _ _

/-- C17 over the reals, on the call that asks at separation 300000 and then
at separation 200000: no crossing, and the call returns `200000 + 1e6`. -/
theorem C17_completed_cost_witness :
    (Physics.simulate_trajectory Real.sqrt Real.cos Real.sin
        (visit [at_separation 300000, at_separation 200000])
        Physics.start 0 100).1.trajectory_crossed = false ∧
    Physics.separations Real.sqrt
        (visit [at_separation 300000, at_separation 200000]
          (Physics.initial_state Real.sqrt Real.cos Real.sin 0) 0.0 (60.0 * 60 * 24) 0.1)
        (Physics.reset Physics.start 100) = [300000, 200000] ∧
    (Physics.simulate_trajectory Real.sqrt Real.cos Real.sin
        (visit [at_separation 300000, at_separation 200000])
        Physics.start 0 100).2 = 200000 + 1e6 := by
  have hs := Physics.simulate_pass_pass 300000 200000 (by norm_num) (by norm_num) (by norm_num)
    Physics.start 0 100
  have hnc : (Physics.simulate_trajectory Real.sqrt Real.cos Real.sin
      (visit [at_separation 300000, at_separation 200000])
      Physics.start 0 100).1.trajectory_crossed = false :=
    congrArg (fun r : Physics ℝ × ℝ => r.1.trajectory_crossed) hs.1
  have h := C17_completed_cost Real.sqrt Real.cos Real.sin
    (visit [at_separation 300000, at_separation 200000]) Physics.start 0 100
    300000 [200000] hnc hs.2
    (by
      intro d hd
      have h6 : (300000 : ℝ) ≤ 1000000 := by norm_num
      have h7 : (200000 : ℝ) ≤ 1000000 := by norm_num
      rcases List.mem_cons.mp hd with h1 | h1
      · rw [h1]
        exact le_trans h6 DBL_MAX_large
      · rw [List.mem_singleton.mp h1]
        exact le_trans h7 DBL_MAX_large)
  refine ⟨hnc, hs.2, ?_⟩
  rw [h.1]
  have e : List.foldl min (300000 : ℝ) [200000] = 200000 := by
    rw [List.foldl_cons, List.foldl_nil]
    exact min_eq_right (by norm_num)
  rw [e]

end ClaimsCost

/-! ## Shared lemmas: vectors written entry by entry -/

section Vectors

variable {α : Type} [LinearOrderedField α]

theorem getD_set_of_lt (l : List α) (i j : Nat) (v : α) (hi : i < l.length) :
    (l.set i v).getD j 0 = if i = j then v else l.getD j 0 := by
  simp only [List.getD_eq_getElem?_getD, List.getElem?_set, if_pos hi]
  split_ifs <;> rfl

theorem getD_replicate_zero (n j : Nat) : (List.replicate n (0 : α)).getD j 0 = 0 := by
  simp only [List.getD_eq_getElem?_getD, List.getElem?_replicate]
  split_ifs <;> rfl

/-- A loop `for i in a .. a + m - 1: result[i] = F i` over a vector: its
length is kept, entry `j` is `F j` for `j` in the range of the loop and is
untouched otherwise. -/
theorem foldl_set_range' (F : Nat → α) (m : Nat) :
    ∀ (a : Nat) (l : List α), a + m ≤ l.length →
      ((List.range' a m).foldl (fun result i => result.set i (F i)) l).length = l.length ∧
      ∀ j, ((List.range' a m).foldl (fun result i => result.set i (F i)) l).getD j 0 =
        if a ≤ j ∧ j < a + m then F j else l.getD j 0 := by
  induction m with
  | zero =>
    intro a l _
    refine ⟨rfl, fun j => ?_⟩
    rw [if_neg (by omega)]
    rfl
  | succ m ih =>
    intro a l hl
    rw [List.range'_succ, List.foldl_cons]
    have hlen : (l.set a (F a)).length = l.length := List.length_set l a (F a)
    obtain ⟨h1, h2⟩ := ih (a + 1) (l.set a (F a)) (by rw [hlen]; omega)
    refine ⟨h1.trans hlen, fun j => ?_⟩
    rw [h2 j, getD_set_of_lt l a j (F a) (by omega)]
    by_cases hj : a = j
    · rw [if_neg (by omega), if_pos hj, if_pos (by omega), hj]
    · by_cases hj2 : a + 1 ≤ j ∧ j < a + 1 + m
      · rw [if_pos hj2, if_pos (by omega)]
      · rw [if_neg hj2, if_neg hj, if_neg (by omega)]

/-- A list whose entries are `g 0, g 1, ...` has the sum of the `g j`. -/
theorem sum_of_entries (g : Nat → α) : ∀ (n : Nat) (l : List α), l.length = n →
    (∀ j, j < n → l.getD j 0 = g j) → l.sum = ∑ j in Finset.range n, g j := by
  intro n
  induction n with
  | zero =>
    intro l hl _
    rw [List.length_eq_zero.mp hl]
    rfl
  | succ n ih =>
    intro l hl hg
    have hne : l ≠ [] := by
      intro h
      rw [h] at hl
      cases hl
    obtain ⟨l1, x, rfl⟩ : ∃ l1 x, l = l1 ++ [x] :=
      ⟨l.dropLast, l.getLast hne, (List.dropLast_append_getLast hne).symm⟩
    have hl1 : l1.length = n := by
      rw [List.length_append, List.length_singleton] at hl
      omega
    have hx : x = g n := by
      have h := hg n (Nat.lt_succ_self n)
      rw [List.getD_eq_getElem?_getD, List.getElem?_append_right (by omega)] at h
      rw [hl1, Nat.sub_self] at h
      exact h
    have hpre : ∀ j, j < n → l1.getD j 0 = g j := by
      intro j hj
      have h := hg j (Nat.lt_succ_of_lt hj)
      rw [List.getD_eq_getElem?_getD, List.getElem?_append_left (by omega)] at h
      rw [List.getD_eq_getElem?_getD]
      exact h
    rw [List.sum_append, List.sum_singleton, ih l1 hl1 hpre, Finset.sum_range_succ, hx]

end Vectors

section Ring

variable {α : Type} [LinearOrderedField α]

/-- The entries of `CalcV()`: entry `j` is the potential of the bond from
particle `j` to the next one, the last bond closing the ring. -/
theorem Chart.CalcV_vec_entries (c : Chart α) (hn : 1 ≤ c.Offsets.length) :
    (Chart.CalcV_vec c).length = c.Offsets.length ∧
    ∀ j, j < c.Offsets.length → (Chart.CalcV_vec c).getD j 0 =
      c.CalcV (c.Offsets.getD j 0)
        (c.Offsets.getD (if j + 1 < c.Offsets.length then j + 1 else 0) 0) := by
  obtain ⟨h1, h2⟩ := foldl_set_range'
    (fun i => c.CalcV (c.Offsets.getD i 0) (c.Offsets.getD (i + 1) 0))
    (c.Offsets.length - 1) 0 (List.replicate c.Offsets.length (0 : α))
    (by rw [List.length_replicate]; omega)
  rw [List.length_replicate] at h1
  unfold Chart.CalcV_vec
  simp only [List.range_eq_range']
  rw [h1]
  refine ⟨by rw [List.length_set, h1], fun j hj => ?_⟩
  rw [getD_set_of_lt _ _ _ _ (by rw [h1]; omega), h2 j]
  by_cases hlast : c.Offsets.length - 1 = j
  · rw [if_pos hlast, if_neg (by omega), hlast]
  · rw [if_neg hlast, if_pos (by omega), if_pos (by omega)]

/-- The entries of `CalcGradV()` for at least three particles: entry `i` is
`CalcGradV` of the offsets of the previous particle, of particle `i` and of
the next particle around the ring. -/
theorem Chart.CalcGradV_vec_entries (c : Chart α) (hN : 3 ≤ c.NumberOfParticles) :
    ∀ i, i < c.NumberOfParticles → (Chart.CalcGradV_vec c).getD i 0 =
      c.CalcGradV
        (c.Offsets.getD (if i = 0 then c.NumberOfParticles - 1 else i - 1) 0)
        (c.Offsets.getD i 0)
        (c.Offsets.getD (if i + 1 < c.NumberOfParticles then i + 1 else 0) 0) := by
  intro i hi
  have hb0 : ((List.replicate c.NumberOfParticles (0 : α)).set 0
      (c.CalcGradV (c.Offsets.getD (c.NumberOfParticles - 1) 0) (c.Offsets.getD 0 0)
        (c.Offsets.getD 1 0))).length = c.NumberOfParticles := by
    rw [List.length_set, List.length_replicate]
  have hb1 : (((List.replicate c.NumberOfParticles (0 : α)).set 0
      (c.CalcGradV (c.Offsets.getD (c.NumberOfParticles - 1) 0) (c.Offsets.getD 0 0)
        (c.Offsets.getD 1 0))).set (c.NumberOfParticles - 1)
      (c.CalcGradV (c.Offsets.getD (c.NumberOfParticles - 2) 0)
        (c.Offsets.getD (c.NumberOfParticles - 1) 0)
        (c.Offsets.getD 0 0))).length = c.NumberOfParticles := by
    rw [List.length_set, hb0]
  obtain ⟨_, h2⟩ := foldl_set_range'
    (fun i => c.CalcGradV (c.Offsets.getD (i - 1) 0) (c.Offsets.getD i 0)
      (c.Offsets.getD (i + 1) 0))
    (c.NumberOfParticles - 1 - 1) 1 _ (by rw [hb1]; omega)
  unfold Chart.CalcGradV_vec
  simp only []
  rw [h2 i]
  by_cases hmid : 1 ≤ i ∧ i < 1 + (c.NumberOfParticles - 1 - 1)
  · rw [if_pos hmid, if_neg (by omega), if_pos (by omega)]
  · rw [if_neg hmid, getD_set_of_lt _ _ _ _ (by rw [hb0]; omega)]
    by_cases hlast : c.NumberOfParticles - 1 = i
    · rw [if_pos hlast, if_neg (by omega), if_neg (by omega)]
      have e1 : i - 1 = c.NumberOfParticles - 2 := by omega
      rw [e1, hlast]
    · have hi0 : i = 0 := by omega
      rw [if_neg hlast, getD_set_of_lt _ _ _ _ (by rw [List.length_replicate]; omega),
        if_pos hi0.symm, if_pos hi0, if_pos (by omega), hi0]

end Ring

section Gradient

/-- The derivative of a bond potential whose two ends move. -/
theorem Chart.hasDerivAt_CalcV (c : Chart ℝ) (a b : ℝ → ℝ) (a1 b1 x : ℝ)
    (ha : HasDerivAt a a1 x) (hb : HasDerivAt b b1 x) :
    HasDerivAt (fun u => c.CalcV (a u) (b u))
      ((b1 - a1) * ((b x - a x) + c.Alpha * (b x - a x) ^ 2 + c.Beta * (b x - a x) ^ 3)) x := by
  have hr : HasDerivAt (fun u => b u - a u) (b1 - a1) x := hb.sub ha
  have h2 := (hr.mul hr).div_const 2.0
  have h3 := (((hr.const_mul c.Alpha).mul hr).mul hr).div_const 3.0
  have h4 := ((((hr.const_mul c.Beta).mul hr).mul hr).mul hr).div_const 4.0
  have h := (h2.add h3).add h4
  unfold Chart.CalcV
  refine h.congr_deriv ?_
  norm_num
  ring

end Gradient

section Total

/-- The sum of the entries of `CalcV()` as a sum over the bonds of the ring. -/
theorem Chart.CalcV_vec_sum (c : Chart ℝ) (hn : 1 ≤ c.Offsets.length) :
    (Chart.CalcV_vec c).sum = ∑ j in Finset.range c.Offsets.length,
      c.CalcV (c.Offsets.getD j 0)
        (c.Offsets.getD (if j + 1 < c.Offsets.length then j + 1 else 0) 0) :=
  sum_of_entries _ _ _ (Chart.CalcV_vec_entries c hn).1 (Chart.CalcV_vec_entries c hn).2

/-- `CalcGradV` is the force law `F r = r + Alpha r² + Beta r³` of the bond
behind minus that of the bond ahead. -/
theorem Chart.CalcGradV_eq (c : Chart ℝ) (qM1 q qP1 : ℝ) :
    c.CalcGradV qM1 q qP1 =
      ((q - qM1) + c.Alpha * (q - qM1) ^ 2 + c.Beta * (q - qM1) ^ 3) -
      ((qP1 - q) + c.Alpha * (qP1 - q) ^ 2 + c.Beta * (qP1 - q) ^ 3) := by
  unfold Chart.CalcGradV
  ring

/-- The total potential of a ring of at least three particles, as a function
of the offset of particle `i`, has derivative entry `i` of `CalcGradV()`. -/
theorem Chart.hasDerivAt_total (c : Chart ℝ) (hN : 3 ≤ c.NumberOfParticles)
    (hlen : c.Offsets.length = c.NumberOfParticles) (i : Nat) (hi : i < c.NumberOfParticles) :
    HasDerivAt (fun x => (Chart.CalcV_vec { c with Offsets := c.Offsets.set i x }).sum)
      ((Chart.CalcGradV_vec c).getD i 0) (c.Offsets.getD i 0) := by
  have hA : ∀ k x, (c.Offsets.set i x).getD k 0 = if i = k then x else c.Offsets.getD k 0 :=
    fun k x => getD_set_of_lt _ _ _ _ (by omega)
  have hfun : (fun x => (Chart.CalcV_vec { c with Offsets := c.Offsets.set i x }).sum) =
      fun x => ∑ j in Finset.range c.NumberOfParticles,
        c.CalcV (if i = j then x else c.Offsets.getD j 0)
          (if i = (if j + 1 < c.NumberOfParticles then j + 1 else 0) then x
            else c.Offsets.getD (if j + 1 < c.NumberOfParticles then j + 1 else 0) 0) := by
    funext x
    rw [Chart.CalcV_vec_sum _ (by simp only [List.length_set]; omega)]
    simp only [List.length_set, hlen, hA]
    rfl
  have hAd : ∀ k, HasDerivAt (fun x : ℝ => if i = k then x else c.Offsets.getD k 0)
      (if i = k then 1 else 0) (c.Offsets.getD i 0) := by
    intro k
    by_cases h : i = k
    · simp only [if_pos h]
      exact hasDerivAt_id _
    · simp only [if_neg h]
      exact hasDerivAt_const _ _
  have hsum := HasDerivAt.sum (u := Finset.range c.NumberOfParticles)
    (fun j _ => Chart.hasDerivAt_CalcV c _ _ _ _ (c.Offsets.getD i 0) (hAd j)
      (hAd (if j + 1 < c.NumberOfParticles then j + 1 else 0)))
  rw [hfun]
  refine hsum.congr_deriv ?_
  have hA0 : ∀ k, (if i = k then c.Offsets.getD i 0 else c.Offsets.getD k 0) =
      c.Offsets.getD k 0 := by
    intro k
    split_ifs with h
    · rw [h]
    · rfl
  simp only [hA0]
  have hterm : ∀ j ∈ Finset.range c.NumberOfParticles,
      ((if i = (if j + 1 < c.NumberOfParticles then j + 1 else 0) then (1 : ℝ) else 0) -
          (if i = j then 1 else 0)) *
        ((c.Offsets.getD (if j + 1 < c.NumberOfParticles then j + 1 else 0) 0 -
            c.Offsets.getD j 0) +
          c.Alpha * (c.Offsets.getD (if j + 1 < c.NumberOfParticles then j + 1 else 0) 0 -
            c.Offsets.getD j 0) ^ 2 +
          c.Beta * (c.Offsets.getD (if j + 1 < c.NumberOfParticles then j + 1 else 0) 0 -
            c.Offsets.getD j 0) ^ 3) =
      (if j = (if i = 0 then c.NumberOfParticles - 1 else i - 1) then
          ((c.Offsets.getD (if j + 1 < c.NumberOfParticles then j + 1 else 0) 0 -
              c.Offsets.getD j 0) +
            c.Alpha * (c.Offsets.getD (if j + 1 < c.NumberOfParticles then j + 1 else 0) 0 -
              c.Offsets.getD j 0) ^ 2 +
            c.Beta * (c.Offsets.getD (if j + 1 < c.NumberOfParticles then j + 1 else 0) 0 -
              c.Offsets.getD j 0) ^ 3) else 0) -
        (if j = i then
          ((c.Offsets.getD (if j + 1 < c.NumberOfParticles then j + 1 else 0) 0 -
              c.Offsets.getD j 0) +
            c.Alpha * (c.Offsets.getD (if j + 1 < c.NumberOfParticles then j + 1 else 0) 0 -
              c.Offsets.getD j 0) ^ 2 +
            c.Beta * (c.Offsets.getD (if j + 1 < c.NumberOfParticles then j + 1 else 0) 0 -
              c.Offsets.getD j 0) ^ 3) else 0) := by
    intro j hj
    have hjn : j < c.NumberOfParticles := Finset.mem_range.mp hj
    have e1 : (i = (if j + 1 < c.NumberOfParticles then j + 1 else 0)) ↔
        (j = (if i = 0 then c.NumberOfParticles - 1 else i - 1)) := by
      split_ifs <;> omega
    have e2 : (i = j) ↔ (j = i) := eq_comm
    simp only [e1, e2]
    split_ifs <;> ring
  rw [Finset.sum_congr rfl hterm, Finset.sum_sub_distrib, Finset.sum_ite_eq',
    Finset.sum_ite_eq', if_pos (Finset.mem_range.mpr hi),
    if_pos (Finset.mem_range.mpr (by split_ifs <;> omega)),
    Chart.CalcGradV_vec_entries c hN i hi, Chart.CalcGradV_eq]
  have e3 : (if (if i = 0 then c.NumberOfParticles - 1 else i - 1) + 1 < c.NumberOfParticles
      then (if i = 0 then c.NumberOfParticles - 1 else i - 1) + 1 else 0) = i := by
    split_ifs <;> omega
  rw [e3]

end Total

/-! ## Claim on the lattice simulation -/

section ClaimsChart

/-- C19. For all real `Alpha`, `Beta` and all real `qM1`, `q`, `qP1`,
`CalcGradV(qM1, q, qP1)` is the derivative with respect to `q` of
`CalcV(qM1, q) + CalcV(q, qP1)`. For a ring of `N ≥ 3` particles (`Offsets`
of size `N = NumberOfParticles`) and every `i < N`, entry `i` of
`CalcGradV()` is the derivative with respect to `Offsets[i]`, the other
offsets fixed, of the sum of the entries of `CalcV()`. -/
theorem C19_gradient (c : Chart ℝ) (qM1 q qP1 : ℝ) :
    HasDerivAt (fun x => c.CalcV qM1 x + c.CalcV x qP1) (c.CalcGradV qM1 q qP1) q ∧
    (3 ≤ c.NumberOfParticles → c.Offsets.length = c.NumberOfParticles →
      ∀ i, i < c.NumberOfParticles →
        HasDerivAt (fun x => (Chart.CalcV_vec { c with Offsets := c.Offsets.set i x }).sum)
          ((Chart.CalcGradV_vec c).getD i 0) (c.Offsets.getD i 0)) := by
  constructor
  · have h1 := Chart.hasDerivAt_CalcV c (fun _ => qM1) (fun x => x) 0 1 q
      (hasDerivAt_const _ _) (hasDerivAt_id _)
    have h2 := Chart.hasDerivAt_CalcV c (fun x => x) (fun _ => qP1) 1 0 q
      (hasDerivAt_id _) (hasDerivAt_const _ _)
    refine (h1.add h2).congr_deriv ?_
    rw [Chart.CalcGradV_eq]
    ring
  · intro hN hlen i hi
    exact Chart.hasDerivAt_total c hN hlen i hi

/-- C19 on the sample ring (offsets `1, 2, 4, 8`, `Alpha = 1`, `Beta = 2`):
entry 0 of `CalcGradV()` is `-648`, and it is the derivative of the total
potential with respect to `Offsets[0]` at `Offsets[0] = 1`. -/
theorem C19_gradient_witness :
    (Chart.CalcGradV_vec (sample_ring : Chart ℝ)).getD 0 0 = -648 ∧
    HasDerivAt
      (fun x => (Chart.CalcV_vec
        { (sample_ring : Chart ℝ) with Offsets := (sample_ring : Chart ℝ).Offsets.set 0 x }).sum)
      ((Chart.CalcGradV_vec (sample_ring : Chart ℝ)).getD 0 0)
      ((sample_ring : Chart ℝ).Offsets.getD 0 0) := by
  have h3 : 3 ≤ (sample_ring : Chart ℝ).NumberOfParticles := by
    show 3 ≤ 4
    omega
  have h0 : 0 < (sample_ring : Chart ℝ).NumberOfParticles := by
    show 0 < 4
    omega
  refine ⟨?_, (C19_gradient sample_ring 0 0 0).2 h3 rfl 0 h0⟩
  rw [Chart.CalcGradV_vec_entries sample_ring h3 0 h0]
  simp only [sample_ring, Chart.CalcGradV]
  norm_num

end ClaimsChart

/-! ## Shared lemmas: the evaluations of a call -/

section Evaluations

variable {α : Type} [LinearOrderedField α]

theorem Physics.evaluations_sys_none (sqrt : α → α) (s s1 : Physics α) (y : state_type α)
    (t : α) (k : state_type α → Stepper α)
    (h : Physics.calculateForces sqrt s y t = (s1, none)) :
    Physics.evaluations sqrt (Stepper.sys y t k) s = [(s, y, t)] := by
  rw [Physics.evaluations, h]

theorem Physics.evaluations_sys_some (sqrt : α → α) (s s1 : Physics α) (y f : state_type α)
    (t : α) (k : state_type α → Stepper α)
    (h : Physics.calculateForces sqrt s y t = (s1, some f)) :
    Physics.evaluations sqrt (Stepper.sys y t k) s =
      (s, y, t) :: Physics.evaluations sqrt (k f) s1 := by
  rw [Physics.evaluations, h]

/-- The separations of a run are the separations of the states of its
evaluations. -/
theorem Physics.separations_eq_map (sqrt : α → α) (st : Stepper α) :
    ∀ s : Physics α, Physics.separations sqrt st s =
      (Physics.evaluations sqrt st s).map
        (fun e => Physics.distance sqrt (e.2.1 0) (e.2.1 1) (e.2.1 2) (e.2.1 3)) := by
  induction st with
  | done => intro s; rfl
  | sys y t k ih =>
    intro s
    by_cases h : (s.trajectory_crossed = false ∧ s.prev_distance ≠ 0) ∧
        Physics.distance sqrt (y 0) (y 1) (y 2) (y 3) < Constants.R3 * 10
    · have hf := Physics.calculateForces_fire sqrt s y t h.1.1 h.1.2 h.2
      rw [Physics.evaluations_sys_none sqrt s _ y t k hf, Physics.separations, hf]
      rfl
    · obtain ⟨f, hf⟩ := Physics.calculateForces_pass sqrt s y t h
      rw [Physics.evaluations_sys_some sqrt s _ y f t k hf, Physics.separations, hf,
        List.map_cons, ← ih f]

/-- From statics with the flag clear and a nonzero `prev_distance`, every
evaluation of a run starts with the flag clear and a nonzero `prev_distance`:
an evaluation that returns from such statics had a separation of at least
`R3 * 10`, which it records. -/
theorem Physics.evaluations_armed (sqrt : α → α) (st : Stepper α) :
    ∀ s : Physics α, s.trajectory_crossed = false → s.prev_distance ≠ 0 →
      ∀ e ∈ Physics.evaluations sqrt st s,
        e.1.trajectory_crossed = false ∧ e.1.prev_distance ≠ 0 := by
  induction st with
  | done =>
    intro s _ _ e he
    cases he
  | sys y t k ih =>
    intro s hc hp e he
    by_cases h : (s.trajectory_crossed = false ∧ s.prev_distance ≠ 0) ∧
        Physics.distance sqrt (y 0) (y 1) (y 2) (y 3) < Constants.R3 * 10
    · rw [Physics.evaluations_sys_none sqrt s _ y t k
        (Physics.calculateForces_fire sqrt s y t h.1.1 h.1.2 h.2)] at he
      rw [List.mem_singleton.mp he]
      exact ⟨hc, hp⟩
    · obtain ⟨f, hf⟩ := Physics.calculateForces_pass sqrt s y t h
      rw [Physics.evaluations_sys_some sqrt s _ y f t k hf] at he
      rcases List.mem_cons.mp he with h1 | h1
      · rw [h1]
        exact ⟨hc, hp⟩
      · have hge : Constants.R3 * 10 ≤ Physics.distance sqrt (y 0) (y 1) (y 2) (y 3) :=
          not_lt.mp (fun hlt => h ⟨⟨hc, hp⟩, hlt⟩)
        have hpos : (0 : α) < Constants.R3 * 10 := by
          rw [Constants.R3_mul_ten]
          norm_num
        exact ih f _ (by exact hc) (ne_of_gt (lt_of_lt_of_le hpos hge)) e h1

/-- A point at distance `A` from `p` is not the point `q` when `q` is at
another distance from `p`. -/
theorem Physics.orbit_separation_ne_zero (px py qx qy A c s : ℝ)
    (hr : 0 < (qx - px) * (qx - px) + (qy - py) * (qy - py))
    (hcs : c * c + s * s = 1)
    (hne : (qx - px) * (qx - px) + (qy - py) * (qy - py) ≠ A * A) :
    Physics.distance Real.sqrt
        (A * ((qx - px) * c - (qy - py) * s) /
          Real.sqrt ((qx - px) * (qx - px) + (qy - py) * (qy - py)) + px)
        (A * ((qx - px) * s + (qy - py) * c) /
          Real.sqrt ((qx - px) * (qx - px) + (qy - py) * (qy - py)) + py) qx qy ≠ 0 := by
  have hsq := Physics.rotated_sq A (qx - px) (qy - py) c s hr hcs
  intro h
  unfold Physics.distance at h
  revert h hsq
  generalize A * ((qx - px) * c - (qy - py) * s) /
    Real.sqrt ((qx - px) * (qx - px) + (qy - py) * (qy - py)) = a
  generalize A * ((qx - px) * s + (qy - py) * c) /
    Real.sqrt ((qx - px) * (qx - px) + (qy - py) * (qy - py)) = b
  intro hsq h
  have hle := Real.sqrt_eq_zero'.mp h
  have h1 : (qx - (a + px)) * (qx - (a + px)) = 0 := by
    nlinarith [mul_self_nonneg (qx - (a + px)), mul_self_nonneg (qy - (b + py))]
  have h2 : (qy - (b + py)) * (qy - (b + py)) = 0 := by
    nlinarith [mul_self_nonneg (qx - (a + px)), mul_self_nonneg (qy - (b + py))]
  have ha : a = qx - px := by linarith [mul_self_eq_zero.mp h1]
  have hb : b = qy - py := by linarith [mul_self_eq_zero.mp h2]
  rw [ha, hb] at hsq
  exact hne hsq

/-- The initial state of a call never has the rocket at the satellite: their
separation is not zero, for every angle. -/
theorem Physics.initial_separation_ne_zero (θ : ℝ) :
    Physics.distance Real.sqrt
      (Physics.initial_state Real.sqrt Real.cos Real.sin θ 0)
      (Physics.initial_state Real.sqrt Real.cos Real.sin θ 1)
      (Physics.initial_state Real.sqrt Real.cos Real.sin θ 2)
      (Physics.initial_state Real.sqrt Real.cos Real.sin θ 3) ≠ 0 := by
  have hcs : Real.cos θ * Real.cos θ + Real.sin θ * Real.sin θ = 1 := by
    have := Real.cos_sq_add_sin_sq θ
    nlinarith [this]
  exact Physics.orbit_separation_ne_zero (-166486522781.19) (-149495158174.03)
    (-166476539755.17) (-220575669506.13) (Constants.R2 + Constants.H)
    (Real.cos θ) (Real.sin θ) (by norm_num) hcs
    (by norm_num [Constants.R2, Constants.H])

end Evaluations

/-! ## Claim on the crossing transition -/

section ClaimsTransition

/-- C10. Over the reals, with the real square root, cosine and sine. Take any
call of `simulate_trajectory` whose integrator, like the steppers of
Boost.Odeint, asks first for the derivative at the initial state it is
handed. The evaluations of the call are those of the run on the reset
statics. Every evaluation of the call that is not the first one starts with
the detector not CROSSED and with a recorded previous separation that is not
zero (no value of it, and in particular not the value 0, disarms the
detector); if its current separation is below `R3 * 10`, it sets
`trajectory_crossed`, sets `final_distance` to the current separation and
throws. -/
theorem C10_crossing_transition (integ : state_type ℝ → ℝ → ℝ → ℝ → Stepper ℝ)
    (s : Physics ℝ) (angle fuel t0 : ℝ) (k : state_type ℝ → Stepper ℝ)
    (hfirst : integ (Physics.initial_state Real.sqrt Real.cos Real.sin angle)
        0.0 (60.0 * 60 * 24) 0.1 =
      Stepper.sys (Physics.initial_state Real.sqrt Real.cos Real.sin angle) t0 k) :
    Physics.simulate_trajectory Real.sqrt Real.cos Real.sin integ s angle fuel =
      Physics.finish (Physics.run Real.sqrt
        (integ (Physics.initial_state Real.sqrt Real.cos Real.sin angle) 0.0 (60.0 * 60 * 24) 0.1)
        (Physics.reset s fuel)) ∧
    (Physics.evaluations Real.sqrt
        (integ (Physics.initial_state Real.sqrt Real.cos Real.sin angle) 0.0 (60.0 * 60 * 24) 0.1)
        (Physics.reset s fuel)).head? =
      some (Physics.reset s fuel, Physics.initial_state Real.sqrt Real.cos Real.sin angle, t0) ∧
    ∀ e ∈ (Physics.evaluations Real.sqrt
        (integ (Physics.initial_state Real.sqrt Real.cos Real.sin angle) 0.0 (60.0 * 60 * 24) 0.1)
        (Physics.reset s fuel)).tail,
      e.1.trajectory_crossed = false ∧ e.1.prev_distance ≠ 0 ∧
      (Physics.distance Real.sqrt (e.2.1 0) (e.2.1 1) (e.2.1 2) (e.2.1 3) < Constants.R3 * 10 →
        Physics.calculateForces Real.sqrt e.1 e.2.1 e.2.2 =
          ({ e.1 with
              min_distance := min e.1.min_distance
                (Physics.distance Real.sqrt (e.2.1 0) (e.2.1 1) (e.2.1 2) (e.2.1 3))
              trajectory_crossed := true
              final_distance :=
                Physics.distance Real.sqrt (e.2.1 0) (e.2.1 1) (e.2.1 2) (e.2.1 3) }, none)) := by
  obtain ⟨f, hf⟩ := Physics.calculateForces_pass Real.sqrt (Physics.reset s fuel)
    (Physics.initial_state Real.sqrt Real.cos Real.sin angle) t0 (fun h => h.1.2 rfl)
  have hev := Physics.evaluations_sys_some Real.sqrt (Physics.reset s fuel) _
    (Physics.initial_state Real.sqrt Real.cos Real.sin angle) f t0 k hf
  refine ⟨Physics.simulate_trajectory_eq Real.sqrt Real.cos Real.sin integ s angle fuel, ?_, ?_⟩
  · rw [hfirst, hev]
    rfl
  · intro e he
    rw [hfirst, hev, List.tail_cons] at he
    have harm := Physics.evaluations_armed Real.sqrt (k f) _ (by exact rfl)
      (by exact Physics.initial_separation_ne_zero angle) e he
    exact ⟨harm.1, harm.2, fun hd =>
      Physics.calculateForces_fire Real.sqrt e.1 e.2.1 e.2.2 harm.1 harm.2 hd⟩

/-- C10 on the call with angle 0 and fuel 100 whose integrator asks at the
initial state and then at the sample state of separation 1: the second
evaluation starts from the statics left by the first one, its separation 1
is below `R3 * 10`, and it sets the flag, stores `final_distance` and
throws. -/
theorem C10_crossing_transition_witness :
    Physics.distance Real.sqrt (at_separation (1 : ℝ) 0) (at_separation (1 : ℝ) 1)
        (at_separation (1 : ℝ) 2) (at_separation (1 : ℝ) 3) < Constants.R3 * 10 ∧
    (Physics.calculateForces Real.sqrt
        (Physics.calculateForces Real.sqrt (Physics.reset Physics.start 100)
          (Physics.initial_state Real.sqrt Real.cos Real.sin 0) 0.0).1
        (at_separation 1) 0.0).2 = none ∧
    (Physics.calculateForces Real.sqrt
        (Physics.calculateForces Real.sqrt (Physics.reset Physics.start 100)
          (Physics.initial_state Real.sqrt Real.cos Real.sin 0) 0.0).1
        (at_separation 1) 0.0).1.trajectory_crossed = true ∧
    (Physics.calculateForces Real.sqrt
        (Physics.calculateForces Real.sqrt (Physics.reset Physics.start 100)
          (Physics.initial_state Real.sqrt Real.cos Real.sin 0) 0.0).1
        (at_separation 1) 0.0).1.final_distance =
      Physics.distance Real.sqrt (at_separation (1 : ℝ) 0) (at_separation (1 : ℝ) 1)
        (at_separation (1 : ℝ) 2) (at_separation (1 : ℝ) 3) := by
  have hlt : Physics.distance Real.sqrt (at_separation (1 : ℝ) 0) (at_separation (1 : ℝ) 1)
      (at_separation (1 : ℝ) 2) (at_separation (1 : ℝ) 3) < Constants.R3 * 10 := by
    rw [Physics.distance_at_separation 1 (by norm_num), Constants.R3_mul_ten]
    norm_num
  have h := C10_crossing_transition (probe_then_visit [at_separation 1])
    Physics.start 0 100 0.0
    (fun _ => visit [at_separation 1]
      (Physics.initial_state Real.sqrt Real.cos Real.sin 0) 0.0 (60.0 * 60 * 24) 0.1) rfl
  obtain ⟨f, hf⟩ := Physics.calculateForces_pass Real.sqrt (Physics.reset Physics.start 100)
    (Physics.initial_state Real.sqrt Real.cos Real.sin 0) 0.0 (fun h => h.1.2 rfl)
  have hmem : ((Physics.calculateForces Real.sqrt (Physics.reset Physics.start 100)
      (Physics.initial_state Real.sqrt Real.cos Real.sin 0) 0.0).1,
      (at_separation 1 : state_type ℝ), (0.0 : ℝ)) ∈
      (Physics.evaluations Real.sqrt
        (probe_then_visit [at_separation 1]
          (Physics.initial_state Real.sqrt Real.cos Real.sin 0) 0.0 (60.0 * 60 * 24) 0.1)
        (Physics.reset Physics.start 100)).tail := by
    rw [probe_then_visit, Physics.evaluations_sys_some Real.sqrt _ _ _ f _ _ hf, List.tail_cons,
      hf, visit]
    rcases hres : Physics.calculateForces Real.sqrt
        { Physics.reset Physics.start 100 with
          min_distance := min (Physics.reset Physics.start 100).min_distance
            (Physics.distance Real.sqrt
              (Physics.initial_state Real.sqrt Real.cos Real.sin 0 0)
              (Physics.initial_state Real.sqrt Real.cos Real.sin 0 1)
              (Physics.initial_state Real.sqrt Real.cos Real.sin 0 2)
              (Physics.initial_state Real.sqrt Real.cos Real.sin 0 3))
          prev_distance := Physics.distance Real.sqrt
              (Physics.initial_state Real.sqrt Real.cos Real.sin 0 0)
              (Physics.initial_state Real.sqrt Real.cos Real.sin 0 1)
              (Physics.initial_state Real.sqrt Real.cos Real.sin 0 2)
              (Physics.initial_state Real.sqrt Real.cos Real.sin 0 3) }
        (at_separation 1) 0.0 with ⟨s2, o⟩
    cases o with
    | none =>
      rw [Physics.evaluations_sys_none Real.sqrt _ _ _ _ _ hres]
      exact List.mem_singleton.mpr rfl
    | some f2 =>
      rw [Physics.evaluations_sys_some Real.sqrt _ _ _ f2 _ _ hres]
      exact List.mem_cons_self _ _
  have hfire := (h.2.2 _ hmem).2.2 hlt
  refine ⟨hlt, ?_, ?_, ?_⟩
  · exact congrArg Prod.snd hfire
  · exact congrArg (fun r : Physics ℝ × Option (state_type ℝ) => r.1.trajectory_crossed) hfire
  · exact congrArg (fun r : Physics ℝ × Option (state_type ℝ) => r.1.final_distance) hfire

end ClaimsTransition
